import Mathlib

/-!
Verification of the session orchestration engine of the `zeitlich` repository:
the agent state manager (`src/lib/state-manager.ts`), the tool router
(`src/lib/tool-router.ts`), the session turn loop (`src/lib/session.ts`),
the task-graph tool handlers (`src/tools/task-create`, `src/tools/task-update`)
and the subagent dispatcher (`src/tools/task/handler.ts`).

The TypeScript sources are shallowly embedded as executable Lean functions.
JSON values (`JSON.stringify` payloads, tool arguments, tool-message content)
are modelled by the inductive `Json` type; `JSON.stringify` of an object is
modelled by the object value itself, since stringification is a faithful
representation of the structural value.  JavaScript `Map`s are modelled as
association lists keyed by the map key; mutation of a task object fetched from
the map is modelled by updating the map entry with that key (the map is the
single owner of each task object, so aliasing goes through the key).
External collaborators (Temporal activities, the model invoker, hook
callbacks supplied by the caller) are modelled as oracle functions, and their
observable invocations are recorded in explicit event traces.
-/

namespace Zeitlich

/-- JSON-serializable values (the `JsonValue` type of `state-manager.ts`). -/
inductive Json where
  | null : Json
  | bool (b : Bool) : Json
  | num (n : Int) : Json
  | str (s : String) : Json
  | arr (elems : List Json) : Json
  | obj (fields : List (String × Json)) : Json
  deriving Repr

/-- Agent execution status (`AgentStatus` in `types.ts`). -/
inductive AgentStatus where
  | RUNNING
  | WAITING_FOR_INPUT
  | COMPLETED
  | FAILED
  | CANCELLED
  deriving DecidableEq, Repr

/-- `isTerminalStatus` from `types.ts`. -/
def isTerminalStatus (status : AgentStatus) : Bool :=
  status == .COMPLETED || status == .FAILED || status == .CANCELLED

/-- Status of a workflow task (`TaskStatus` in `types.ts`). -/
inductive TaskStatus where
  | pending
  | in_progress
  | completed
  deriving DecidableEq, Repr

/-- A task managed within a workflow (`WorkflowTask` in `types.ts`). -/
structure WorkflowTask where
  id : String
  subject : String
  description : String
  activeForm : String
  status : TaskStatus
  metadata : List (String × String)
  blockedBy : List String
  blocks : List String
  deriving DecidableEq, Repr

/-- A serialized tool definition stored in agent state
(`SerializableToolDefinition` in `types.ts`); the live Zod schema has been
converted to a plain JSON-Schema object. -/
structure SerializableToolDef where
  name : String
  description : String
  schema : Json
  strict : Option Bool
  max_uses : Option Nat
  deriving Repr

/-- The task map owned by the state manager: a JavaScript `Map<string,
WorkflowTask>` modelled as an association list keyed by task id. -/
def TaskMap := List (String × WorkflowTask)

/-- Lookup in a task map: `tasks.get(id)`. -/
def TaskMap.get (m : TaskMap) (id : String) : Option WorkflowTask :=
  match m with
  | [] => none
  | (k, t) :: rest => if k = id then some t else TaskMap.get rest id

/-- `tasks.set(id, t)`: replace the entry for an existing key, else append. -/
def TaskMap.set (m : TaskMap) (id : String) (t : WorkflowTask) : TaskMap :=
  match m with
  | [] => [(id, t)]
  | (k, t') :: rest =>
      if k = id then (k, t) :: rest else (k, t') :: TaskMap.set rest id t

/-- `tasks.delete(id)`: remove the entry for the key, reporting whether one
was removed. -/
def TaskMap.del (m : TaskMap) (id : String) : Bool × TaskMap :=
  match m with
  | [] => (false, [])
  | (k, t') :: rest =>
      if k = id then (true, rest)
      else
        let r := TaskMap.del rest id
        (r.1, (k, t') :: r.2)

/-- The closure state of `createAgentStateManager` (`state-manager.ts`):
the mutable local variables `status`, `version`, `turns`, `tools`, the
`tasks` map, and the `customState` object of caller-supplied custom fields. -/
structure ManagerState where
  status : AgentStatus
  version : Nat
  turns : Nat
  tools : List SerializableToolDef
  tasks : TaskMap
  custom : List (String × Json)

/-- The default initial manager state: `status="RUNNING", version=0, turns=0`,
no tools, no tasks, no custom fields. -/
def initialManagerState : ManagerState :=
  { status := .RUNNING, version := 0, turns := 0, tools := [], tasks := [],
    custom := [] }

namespace ManagerState

/-- `run()`: set status to RUNNING and bump the version. -/
def run (s : ManagerState) : ManagerState :=
  { s with status := .RUNNING, version := s.version + 1 }

/-- `waitForInput()`: set status to WAITING_FOR_INPUT and bump the version. -/
def waitForInput (s : ManagerState) : ManagerState :=
  { s with status := .WAITING_FOR_INPUT, version := s.version + 1 }

/-- `complete()`: set status to COMPLETED and bump the version. -/
def complete (s : ManagerState) : ManagerState :=
  { s with status := .COMPLETED, version := s.version + 1 }

/-- `fail()`: set status to FAILED and bump the version. -/
def fail (s : ManagerState) : ManagerState :=
  { s with status := .FAILED, version := s.version + 1 }

/-- `cancel()`: set status to CANCELLED and bump the version. -/
def cancel (s : ManagerState) : ManagerState :=
  { s with status := .CANCELLED, version := s.version + 1 }

/-- `incrementVersion()`. -/
def incrementVersion (s : ManagerState) : ManagerState :=
  { s with version := s.version + 1 }

/-- `incrementTurns()` (does not touch the version). -/
def incrementTurns (s : ManagerState) : ManagerState :=
  { s with turns := s.turns + 1 }

/-- `isRunning()`. -/
def isRunning (s : ManagerState) : Bool := s.status == .RUNNING

/-- `isTerminal()`. -/
def isTerminal (s : ManagerState) : Bool := isTerminalStatus s.status

/-- JavaScript object-key assignment `customState[key] = value`: replace the
value of an existing key, else add the key. -/
def setKey : List (String × Json) → String → Json → List (String × Json)
  | [], k, v => [(k, v)]
  | (k', v') :: rest, k, v =>
      if k' = k then (k', v) :: rest else (k', v') :: setKey rest k v

/-- `set(key, value)`: assign a custom field and bump the version. -/
def set (s : ManagerState) (key : String) (value : Json) : ManagerState :=
  { s with custom := setKey s.custom key value, version := s.version + 1 }

/-- `setTask(task)`: `tasks.set(task.id, task)` and bump the version. -/
def setTask (s : ManagerState) (task : WorkflowTask) : ManagerState :=
  { s with tasks := s.tasks.set task.id task, version := s.version + 1 }

/-- `getTask(id)`. -/
def getTask (s : ManagerState) (id : String) : Option WorkflowTask :=
  s.tasks.get id

/-- `deleteTask(id)`: delete from the map; bump the version only when an
entry was actually removed; return the deletion flag. -/
def deleteTask (s : ManagerState) (id : String) : Bool × ManagerState :=
  let r := s.tasks.del id
  if r.1 then
    (true, { s with tasks := r.2, version := s.version + 1 })
  else
    (false, s)

/-- `shouldReturnFromWait(lastKnownVersion)`. -/
def shouldReturnFromWait (s : ManagerState) (lastKnownVersion : Nat) : Bool :=
  decide (lastKnownVersion < s.version) || isTerminalStatus s.status

end ManagerState

/-- Serialization of an `AgentStatus` for the state snapshot. -/
def statusToJson : AgentStatus → Json
  | .RUNNING => .str "RUNNING"
  | .WAITING_FOR_INPUT => .str "WAITING_FOR_INPUT"
  | .COMPLETED => .str "COMPLETED"
  | .FAILED => .str "FAILED"
  | .CANCELLED => .str "CANCELLED"

/-- Serialization of a stored tool definition for the state snapshot. -/
def toolDefToJson (t : SerializableToolDef) : Json :=
  .obj [("name", .str t.name), ("description", .str t.description),
        ("schema", t.schema),
        ("strict", match t.strict with | some b => .bool b | none => .null),
        ("max_uses", match t.max_uses with | some n => .num n | none => .null)]

/-- `buildState()` from `createAgentStateManager` (`state-manager.ts`
lines 158-166): the snapshot object literal
`\x7b status, version, turns, tools, ...customState \x7d`, returned by
`getCurrentState()` and by the `get<Agent>State` query handler.  The object
is modelled as the ordered list of its key/value pairs.  Note that the
source spreads only `customState` — the `tasks` map (a declared field of
`BaseAgentState`) is not included in the literal; the `as AgentState<TCustom>`
cast silences the resulting type error. -/
def buildState (s : ManagerState) : List (String × Json) :=
  [("status", statusToJson s.status),
   ("version", .num s.version),
   ("turns", .num s.turns),
   ("tools", .arr (s.tools.map toolDefToJson))]
  ++ s.custom

/-- Key lookup in a snapshot object. -/
def snapshotGet (fields : List (String × Json)) (key : String) : Option Json :=
  match fields with
  | [] => none
  | (k, v) :: rest => if k = key then some v else snapshotGet rest key

/-- The underlying entry list of a task map. -/
def TaskMap.toList (m : TaskMap) : List (String × WorkflowTask) := m

/-- Apply `f` to the task stored under `id` (no-op when absent): the model of
the handler mutating, through its map reference, the task object fetched
under that key. -/
def TaskMap.mapUpdate : TaskMap → String → (WorkflowTask → WorkflowTask) → TaskMap
  | [], _, _ => []
  | (k, t) :: rest, id, f =>
      if k = id then (k, f t) :: TaskMap.mapUpdate rest id f
      else (k, t) :: TaskMap.mapUpdate rest id f

/-- `if (!xs.includes(x)) xs.push(x)` from `task-update/handler.ts`. -/
def pushIfAbsent (x : String) (xs : List String) : List String :=
  if x ∈ xs then xs else xs ++ [x]

/-- Arguments of the task-create tool (`TaskCreateToolSchemaType`). -/
structure TaskCreateArgs where
  subject : String
  description : String
  activeForm : String
  metadata : Option (List (String × String))

/-- The task literal built by `createTaskCreateHandler`
(`task-create/handler.ts` lines 28-37): fresh `uuid4()` id, default
`status: "pending"`, `metadata: args.metadata ?? \x7b\x7d`, empty relation
arrays. -/
def createTaskFromArgs (uuid : String) (args : TaskCreateArgs) : WorkflowTask :=
  { id := uuid, subject := args.subject, description := args.description,
    activeForm := args.activeForm, status := .pending,
    metadata := args.metadata.getD [], blockedBy := [], blocks := [] }

/-- The task-create handler: build the task and `stateManager.setTask(task)`;
the generated `uuid4()` value is passed in as `uuid`. -/
def taskCreateHandler (uuid : String) (args : TaskCreateArgs)
    (s : ManagerState) : ManagerState × WorkflowTask :=
  let task := createTaskFromArgs uuid args
  (s.setTask task, task)

/-- Arguments of the task-update tool (`TaskUpdateToolSchemaType`). -/
structure TaskUpdateArgs where
  taskId : String
  status : Option TaskStatus
  addBlockedBy : Option (List String)
  addBlocks : Option (List String)

/-- Push `value` onto the `blockedBy` array of the task stored under `key`
if absent (`task.blockedBy.push(...)` guarded by `includes`). -/
def pushBlockedBy (key value : String) (m : TaskMap) : TaskMap :=
  m.mapUpdate key (fun t => { t with blockedBy := pushIfAbsent value t.blockedBy })

/-- Push `value` onto the `blocks` array of the task stored under `key`
if absent (`task.blocks.push(...)` guarded by `includes`). -/
def pushBlocks (key value : String) (m : TaskMap) : TaskMap :=
  m.mapUpdate key (fun t => { t with blocks := pushIfAbsent value t.blocks })

/-- One iteration of the `addBlockedBy` loop of `task-update/handler.ts`
(lines 49-58): push `blockerId` onto the task's `blockedBy` if absent, then,
if a task with id `blockerId` exists, push the updated task's id (`tid`,
the `task.id` of the task fetched at entry) onto that blocker's `blocks`
if absent. -/
def blockedByStep (taskId tid : String) (m : TaskMap) (blockerId : String) :
    TaskMap :=
  if ((pushBlockedBy taskId blockerId m).get blockerId).isSome then
    pushBlocks blockerId tid (pushBlockedBy taskId blockerId m)
  else pushBlockedBy taskId blockerId m

/-- One iteration of the `addBlocks` loop of `task-update/handler.ts`
(lines 63-72): push `blockedId` onto the task's `blocks` if absent, then,
if a task with id `blockedId` exists, push `tid` onto that task's
`blockedBy` if absent. -/
def blocksStep (taskId tid : String) (m : TaskMap) (blockedId : String) :
    TaskMap :=
  if ((pushBlocks taskId blockedId m).get blockedId).isSome then
    pushBlockedBy blockedId tid (pushBlocks taskId blockedId m)
  else pushBlocks taskId blockedId m

/-- The status assignment of `task-update/handler.ts` lines 43-45
(`if (args.status) task.status = args.status`). -/
def applyStatus (taskId : String) (o : Option TaskStatus) (m : TaskMap) :
    TaskMap :=
  match o with
  | some st => m.mapUpdate taskId (fun t => { t with status := st })
  | none => m

/-- The `addBlockedBy` loop (no-op when the argument is absent). -/
def applyAddBlockedBy (taskId tid : String) (o : Option (List String))
    (m : TaskMap) : TaskMap :=
  match o with
  | some bs => bs.foldl (blockedByStep taskId tid) m
  | none => m

/-- The `addBlocks` loop (no-op when the argument is absent). -/
def applyAddBlocks (taskId tid : String) (o : Option (List String))
    (m : TaskMap) : TaskMap :=
  match o with
  | some bs => bs.foldl (blocksStep taskId tid) m
  | none => m

/-- The task-map transformation performed by `createTaskUpdateHandler`
(`task-update/handler.ts` lines 33-75): fetch the task (no-op when absent),
set its status if provided, then run the `addBlockedBy` and `addBlocks`
loops in order; `t0` is the task object fetched at entry, whose `id` field
is the value pushed into the reciprocal arrays. -/
def taskUpdateMap (args : TaskUpdateArgs) (m : TaskMap) : TaskMap :=
  match m.get args.taskId with
  | none => m
  | some t0 =>
      applyAddBlocks args.taskId t0.id args.addBlocks
        (applyAddBlockedBy args.taskId t0.id args.addBlockedBy
          (applyStatus args.taskId args.status m))

/-- The full task-update handler: on a found task it applies the map
transformation and then `stateManager.incrementVersion()`; on a missing task
it returns an error response and leaves the state untouched. -/
def taskUpdateHandler (args : TaskUpdateArgs) (tasks : TaskMap)
    (s : ManagerState) : TaskMap × ManagerState × Option WorkflowTask :=
  match tasks.get args.taskId with
  | none => (tasks, s, none)
  | some _ =>
      let m' := taskUpdateMap args tasks
      (m', s.incrementVersion, m'.get args.taskId)

/-- Well-formedness of a task map: every stored task's `id` field equals its
map key (guaranteed by `tasks.set(task.id, task)`). -/
def WFids : TaskMap → Prop
  | [] => True
  | (k, t) :: rest => t.id = k ∧ WFids rest

/-- `uuid` appears in no stored task's relation arrays: the freshness
guarantee of `uuid4()`-generated ids with respect to earlier mentions. -/
def Unmentioned (uuid : String) : TaskMap → Prop
  | [] => True
  | (_, t) :: rest => uuid ∉ t.blockedBy ∧ uuid ∉ t.blocks ∧ Unmentioned uuid rest

/-- The `blockedBy`/`blocks` relation is bidirectional for every pair of
existing tasks: `B` is in `A.blockedBy` iff `A` is in `B.blocks`. -/
def Bidirectional (m : TaskMap) : Prop :=
  ∀ a ta b tb, m.get a = some ta → m.get b = some tb →
    (b ∈ ta.blockedBy ↔ a ∈ tb.blocks)

/-- `PreToolUseHookResult` (`types.ts`): a pre-hook may skip the call or
replace its arguments (`modifiedArgs !== undefined`). -/
structure PreResult where
  skip : Bool
  modifiedArgs : Option Json

/-- `PostToolUseFailureHookResult` (`types.ts`): a failure hook may provide
fallback content or suppress the error. -/
structure FailResult where
  fallbackContent : Option Json
  suppress : Bool

/-- `ToolHandlerResponse` (`tool-router.ts`): content for the tool message
plus the data returned to the workflow (`null` modelled as `none`). -/
structure HandlerResp where
  toolResponse : Json
  data : Option Json

/-- `ParsedToolCall` (`tool-router.ts`): id, name, validated args. -/
structure ParsedCall where
  id : String
  name : String
  args : Json

/-- `RawToolCall` (`tool-router.ts`): the id is optional. -/
structure RawToolCall where
  id : Option String
  name : String
  args : Json

/-- `ToolCallResult` (`tool-router.ts`). -/
structure ToolCallResult where
  toolCallId : String
  name : String
  data : Option Json
  deriving Repr

/-- An entry of the router's internal tool map: name, argument validator
(the Zod schema's `parse`, yielding the validated value or the validator's
detail on failure), handler (fallible: an exception is an `error`), and the
optional per-tool hooks.  The per-tool post hook returns void, so only its
presence is modelled; the failure hook receives the effective args and the
error message. -/
structure ToolSpec where
  name : String
  validate : Json → Except String Json
  handler : Json → Json → Except String HandlerResp
  preHook : Option (Json → PreResult)
  postHookPresent : Bool
  failHook : Option (Json → String → FailResult)

/-- The options of `createToolRouter` relevant to call processing: the tool
map and the global hooks.  The thread id is fixed per router, so appends
are modelled as events keyed by tool-call id only. -/
structure RouterCfg where
  tools : List ToolSpec
  globalPre : Option (ParsedCall → PreResult)
  globalPostPresent : Bool
  globalFail : Option (ParsedCall → String → FailResult)

/-- Observable actions of one call's pipeline, in execution order.  Hook
events are recorded only when the hook is present, mirroring the
`if (hooks?.onX)` guards of the source; `preTool`, `handlerRun` and
`postTool` carry the argument value the callee receives. -/
inductive Event where
  | preGlobal (callId : String)
  | preTool (callId : String) (args : Json)
  | handlerRun (callId : String) (args : Json)
  | failTool (callId : String)
  | failGlobal (callId : String)
  | append (callId : String) (content : Json)
  | postTool (callId : String) (args : Json)
  | postGlobal (callId : String)

/-- `JSON.stringify(\x7bskipped: true, reason: "Skipped by PreToolUse hook"\x7d)`. -/
def skippedGlobalContent : Json :=
  .obj [("skipped", .bool true), ("reason", .str "Skipped by PreToolUse hook")]

/-- The analogous content for a per-tool pre-hook skip. -/
def skippedToolContent : Json :=
  .obj [("skipped", .bool true),
        ("reason", .str "Skipped by tool PreToolUse hook")]

/-- The unknown-tool result object built at `tool-router.ts` line 525. -/
def unknownToolContent (name : String) : Json :=
  .obj [("error", .str ("Unknown tool: " ++ name))]

/-- `\x7b error: String(error), recovered: true \x7d`. -/
def recoveredData (err : String) : Json :=
  .obj [("error", .str err), ("recovered", .bool true)]

/-- `\x7b error: String(error), suppressed: true \x7d` (used both as content
and as result data in the suppress path). -/
def suppressedData (err : String) : Json :=
  .obj [("error", .str err), ("suppressed", .bool true)]

/-- Steps 5-6 of the pipeline: the unconditional append of the response
content keyed by the call's id, then the per-tool post hook, then the
global post hook (`tool-router.ts` lines 574-606), and the construction of
the `ToolCallResult`. -/
def finishCall (cfg : RouterCfg) (call : ParsedCall) (tool : Option ToolSpec)
    (evts : List Event) (args content : Json) (data : Option Json) :
    List Event × Except String (Option ToolCallResult) :=
  let evts1 := evts ++ [Event.append call.id content]
  let evts2 := evts1 ++ (match tool with
    | some t => if t.postHookPresent then [Event.postTool call.id args] else []
    | none => [])
  let evts3 := evts2 ++
    (if cfg.globalPostPresent then [Event.postGlobal call.id] else [])
  (evts3, .ok (some { toolCallId := call.id, name := call.name, data := data }))

/-- Step 4 for the global layer: consult `options.hooks.onPostToolUseFailure`
if the per-tool layer did not recover; rethrow the original error when
nothing recovers (`tool-router.ts` lines 551-571). -/
def tryGlobalFailure (cfg : RouterCfg) (call : ParsedCall)
    (tool : Option ToolSpec) (evts : List Event) (args : Json) (e : String) :
    List Event × Except String (Option ToolCallResult) :=
  match cfg.globalFail with
  | some f =>
      let r := f call e
      match r.fallbackContent with
      | some c =>
          finishCall cfg call tool (evts ++ [Event.failGlobal call.id]) args c
            (some (recoveredData e))
      | none =>
          if r.suppress then
            finishCall cfg call tool (evts ++ [Event.failGlobal call.id]) args
              (suppressedData e) (some (suppressedData e))
          else (evts ++ [Event.failGlobal call.id], .error e)
  | none => (evts, .error e)

/-- Step 4, per-tool layer first: consult the tool's `onPostToolUseFailure`;
fall through to the global layer when it does not recover
(`tool-router.ts` lines 529-549). -/
def handleFailure (cfg : RouterCfg) (call : ParsedCall)
    (tool : Option ToolSpec) (evts : List Event) (args : Json) (e : String) :
    List Event × Except String (Option ToolCallResult) :=
  match tool with
  | some t =>
      match t.failHook with
      | some f =>
          let r := f args e
          match r.fallbackContent with
          | some c =>
              finishCall cfg call tool (evts ++ [Event.failTool call.id]) args
                c (some (recoveredData e))
          | none =>
              if r.suppress then
                finishCall cfg call tool (evts ++ [Event.failTool call.id])
                  args (suppressedData e) (some (suppressedData e))
              else
                tryGlobalFailure cfg call tool
                  (evts ++ [Event.failTool call.id]) args e
      | none => tryGlobalFailure cfg call tool evts args e
  | none => tryGlobalFailure cfg call tool evts args e

/-- Step 3: handler invocation with the effective arguments and the
handler context; an absent tool yields the unknown-tool error result
without throwing (`tool-router.ts` lines 512-527). -/
def execHandler (cfg : RouterCfg) (handlerContext : Json) (call : ParsedCall)
    (tool : Option ToolSpec) (evts : List Event) (args : Json) :
    List Event × Except String (Option ToolCallResult) :=
  match tool with
  | some t =>
      match t.handler args handlerContext with
      | .ok resp =>
          finishCall cfg call tool (evts ++ [Event.handlerRun call.id args])
            args resp.toolResponse resp.data
      | .error e =>
          handleFailure cfg call tool (evts ++ [Event.handlerRun call.id args])
            args e
  | none =>
      finishCall cfg call tool evts args (unknownToolContent call.name)
        (some (unknownToolContent call.name))

/-- Step 2: the per-tool `onPreToolUse`, layered on the effective arguments
left by the global hook (`tool-router.ts` lines 490-510). -/
def runToolPre (cfg : RouterCfg) (handlerContext : Json) (call : ParsedCall)
    (tool : Option ToolSpec) (evts : List Event) (args : Json) :
    List Event × Except String (Option ToolCallResult) :=
  match tool with
  | some t =>
      match t.preHook with
      | some p =>
          let r := p args
          if r.skip then
            (evts ++ [Event.preTool call.id args,
              Event.append call.id skippedToolContent], .ok none)
          else
            execHandler cfg handlerContext call tool
              (evts ++ [Event.preTool call.id args])
              (match r.modifiedArgs with | some a => a | none => args)
      | none => execHandler cfg handlerContext call tool evts args
  | none => execHandler cfg handlerContext call tool evts args

/-- The per-call execution pipeline `processToolCall` (`tool-router.ts`
lines 458-609): tool lookup, global pre-hook (step 1), per-tool pre-hook
(step 2), handler (step 3), failure hooks (step 4), append (step 5), post
hooks (step 6).  Returns the trace of observable events together with the
produced result — `none` for a skipped call — or the propagated
exception. -/
def processToolCall (cfg : RouterCfg) (handlerContext : Json)
    (call : ParsedCall) : List Event × Except String (Option ToolCallResult) :=
  let tool := cfg.tools.find? (fun t => t.name == call.name)
  match cfg.globalPre with
  | some g =>
      let r := g call
      if r.skip then
        ([Event.preGlobal call.id, Event.append call.id skippedGlobalContent],
          .ok none)
      else
        runToolPre cfg handlerContext call tool [Event.preGlobal call.id]
          (match r.modifiedArgs with | some a => a | none => call.args)
  | none => runToolPre cfg handlerContext call tool [] call.args

/-- `processToolCalls` in sequential mode (`options.parallel = false`,
`tool-router.ts` lines 655-685): process the calls strictly in array
order, filter out skipped calls, and let an unrecovered exception abort
the remaining batch.  (In parallel mode each call's own pipeline is
identical; only the interleaving of traces differs.) -/
def processToolCallsSeq (cfg : RouterCfg) (handlerContext : Json) :
    List ParsedCall → List Event × Except String (List ToolCallResult)
  | [] => ([], .ok [])
  | c :: rest =>
      match processToolCall cfg handlerContext c with
      | (ev, .error e) => (ev, .error e)
      | (ev, .ok none) =>
          let r := processToolCallsSeq cfg handlerContext rest
          (ev ++ r.1, r.2)
      | (ev, .ok (some res)) =>
          match processToolCallsSeq cfg handlerContext rest with
          | (ev2, .ok rs) => (ev ++ ev2, .ok (res :: rs))
          | (ev2, .error e) => (ev ++ ev2, .error e)

/-- `processToolCalls`: empty input returns empty output immediately. -/
def processToolCalls (cfg : RouterCfg) (handlerContext : Json)
    (calls : List ParsedCall) :
    List Event × Except String (List ToolCallResult) :=
  if calls.isEmpty then ([], .ok [])
  else processToolCallsSeq cfg handlerContext calls

/-- The parse-stage error taxonomy: `UnknownTool` and `InvalidArguments`
(the latter carrying the validator's detail). -/
inductive ParseError where
  | unknownTool (name : String)
  | invalidArguments (detail : String)
  deriving DecidableEq, Repr

/-- The `message` of the thrown error: `parseToolCall` throws
`new Error("Tool <name> not found")` for an unknown name, and the
validator's own detail otherwise. -/
def ParseError.message : ParseError → String
  | .unknownTool n => "Tool " ++ n ++ " not found"
  | .invalidArguments d => d

/-- `parseToolCall` (`tool-router.ts` lines 618-633): look the tool up by
name, fail for an unknown name, validate the raw arguments with the tool's
schema, and build the `ParsedToolCall` with `id: toolCall.id ?? ""`. -/
def parseToolCall (cfg : RouterCfg) (raw : RawToolCall) :
    Except ParseError ParsedCall :=
  match cfg.tools.find? (fun t => t.name == raw.name) with
  | none => .error (.unknownTool raw.name)
  | some tool =>
      match tool.validate raw.args with
      | .error d => .error (.invalidArguments d)
      | .ok v => .ok { id := raw.id.getD "", name := raw.name, args := v }

/-- The inline error content the session appends for a call that fails
parsing (`session.ts` lines 167-174). -/
def invalidCallContent (name detail : String) : Json :=
  .obj [("error",
    .str ("Invalid tool call for \"" ++ name ++ "\": " ++ detail))]

/-- The session's parse loop (`session.ts` lines 160-175), applied to the
non-`Task` raw calls: each successfully parsed call joins the list handed
to `processToolCalls`; each parse failure is appended to the thread as an
inline error result and excluded from that list. -/
def sessionParseLoop (cfg : RouterCfg) :
    List RawToolCall → List Event × List ParsedCall
  | [] => ([], [])
  | tc :: rest =>
      match parseToolCall cfg tc with
      | .ok p =>
          let r := sessionParseLoop cfg rest
          (r.1, p :: r.2)
      | .error e =>
          let r := sessionParseLoop cfg rest
          (Event.append (tc.id.getD "") (invalidCallContent tc.name e.message)
            :: r.1, r.2)

/-- The thread appends recorded in a trace. -/
def appendsOf (evts : List Event) : List (String × Json) :=
  evts.filterMap (fun e => match e with
    | .append i c => some (i, c)
    | _ => none)

/-- Whether the global pre hook, if any, skips the call. -/
def globalPreSkips (cfg : RouterCfg) (call : ParsedCall) : Bool :=
  match cfg.globalPre with
  | some g => (g call).skip
  | none => false

/-- `SubagentConfig` (`types.ts`): name, description, the Temporal workflow
type used with `executeChild`, an optional task-queue override, an optional
result-schema validator, optional static context. -/
structure SubagentCfg where
  name : String
  description : String
  workflowType : String
  taskQueue : Option String
  resultSchema : Option (Json → Except String Json)
  context : Option Json

/-- The validated arguments of a `Task` (subagent) tool call. -/
structure TaskArgs where
  subagent : String
  prompt : String

/-- Observable action of the subagent dispatcher: starting a nested child
execution with a derived id, workflow type, task queue, and input. -/
inductive ChildEvent where
  | childStarted (childWorkflowId workflowType taskQueue : String)
      (input : Json)

/-- `SubagentInput`: `\x7b prompt, ...(context && \x7b context \x7d) \x7d`. -/
def subagentInput (prompt : String) (context : Option Json) : Json :=
  match context with
  | some c => .obj [("prompt", .str prompt), ("context", c)]
  | none => .obj [("prompt", .str prompt)]

/-- `createTaskHandler` (`task/handler.ts` lines 32-85): fail fast when the
named subagent is not configured (before any child is started); otherwise
derive the child workflow id `parentWorkflowId-subagent-uuid4()`, start the
child on the configured queue (defaulting to the parent's) with
`\x7bprompt, context?\x7d`, await its result (the `execChild` oracle keyed
by workflow type and input), validate the raw result against the
configured schema if any — a mismatch is a thrown error — and produce the
tool response carrying the validated result and the child id. -/
def createTaskHandler (subagents : List SubagentCfg)
    (parentWorkflowId parentTaskQueue uuid : String)
    (execChild : String → Json → Json) (args : TaskArgs) :
    List ChildEvent × Except String HandlerResp :=
  match subagents.find? (fun s => s.name == args.subagent) with
  | none =>
      ([], .error ("Unknown subagent: " ++ args.subagent ++ ". Available: " ++
        String.intercalate ", " (subagents.map (fun s => s.name))))
  | some config =>
      let childWorkflowId :=
        parentWorkflowId ++ "-" ++ args.subagent ++ "-" ++ uuid
      let input := subagentInput args.prompt config.context
      let queue := config.taskQueue.getD parentTaskQueue
      let childResult := execChild config.workflowType input
      let started :=
        [ChildEvent.childStarted childWorkflowId config.workflowType queue
          input]
      match config.resultSchema with
      | some schema =>
          match schema childResult with
          | .error d => (started, .error d)
          | .ok validated =>
              (started, .ok { toolResponse := validated,
                              data := some (.obj [("result", validated),
                                ("childWorkflowId", .str childWorkflowId)]) })
      | none =>
          (started, .ok { toolResponse := childResult,
                          data := some (.obj [("result", childResult),
                            ("childWorkflowId", .str childWorkflowId)]) })

/-- Field access on a JSON object. -/
def jsonField (j : Json) (key : String) : Option Json :=
  match j with
  | .obj fields => snapshotGet fields key
  | _ => none

/-- Decode `Task` tool arguments from their JSON form. -/
def taskArgsOfJson (j : Json) : Option TaskArgs :=
  match jsonField j "subagent", jsonField j "prompt" with
  | some (.str s), some (.str p) => some { subagent := s, prompt := p }
  | _, _ => none

/-- A single configured subagent used by concrete instances. -/
def sampleSubagents : List SubagentCfg :=
  [{ name := "researcher", description := "Researches topics",
     workflowType := "researcherWorkflow", taskQueue := none,
     resultSchema := none, context := none }]

/-- The `Task` tool as registered in the router: its handler is the
subagent dispatcher over `sampleSubagents` (child results stubbed to
`null` by the oracle, which the dispatcher never reaches for an unknown
subagent). -/
def taskToolSpec : ToolSpec :=
  { name := "Task",
    validate := fun j => .ok j,
    handler := fun a _ =>
      match taskArgsOfJson a with
      | some ta =>
          (createTaskHandler sampleSubagents "parent" "queue" "u1"
            (fun _ _ => .null) ta).2
      | none => .error "invalid Task args",
    preHook := none, postHookPresent := false, failHook := none }

/-- A router holding the `Task` tool plus a global failure hook that
suppresses every handler error. -/
def suppressAllCfg : RouterCfg :=
  { tools := [taskToolSpec], globalPre := none, globalPostPresent := false,
    globalFail := some (fun _ _ => { fallbackContent := none,
                                     suppress := true }) }

/-- A `Task` call naming a subagent that is not configured. -/
def unknownSubagentCall : ParsedCall :=
  { id := "c1", name := "Task",
    args := .obj [("subagent", .str "nosuch"), ("prompt", .str "do it")] }

/-- `SessionExitReason` (`types.ts`). -/
inductive SessionExitReason where
  | completed
  | max_turns
  | waiting_for_input
  | failed
  | cancelled
  deriving DecidableEq, Repr

/-- How one iteration of `runSession`'s while loop ended. -/
inductive LoopExit where
  | earlyReturn
  | waiting
  | condFalse
  | thrown (e : String)
  deriving DecidableEq, Repr

/-- The collaborators of one session run, as deterministic oracles:
`stopReason n` is the model invoker's stop reason on turn `n`;
`processOutcome n st` is the manager status after the raw-call parsing and
`processToolCalls` of turn `n` ran from status `st` (hooks may have changed
the status), or the unrecovered exception those steps propagated. -/
structure SessionEnv where
  maxTurns : Nat
  hasTools : Bool
  stopReason : Nat → Option String
  processOutcome : Nat → AgentStatus → Except String AgentStatus

/-- The while loop of `runSession` (`session.ts` lines 130-223): while
`isRunning() && !isTerminal() && turns < maxTurns`, increment the turn,
invoke the model; `stopReason === "end_turn"` or a router without tools
completes the session and returns early; otherwise parse and process the
tool calls (which may throw), then break when the status became
`WAITING_FOR_INPUT`. -/
def sessionLoop (env : SessionEnv) (s : ManagerState) :
    LoopExit × ManagerState :=
  if _hcond : s.status = AgentStatus.RUNNING ∧
      isTerminalStatus s.status = false ∧ s.turns < env.maxTurns then
    let s1 := s.incrementTurns
    if env.stopReason s1.turns = some "end_turn" then
      (LoopExit.earlyReturn, s1.complete)
    else if env.hasTools = false then
      (LoopExit.earlyReturn, s1.complete)
    else
      match env.processOutcome s1.turns s1.status with
      | .error e => (LoopExit.thrown e, s1)
      | .ok st =>
          if st = AgentStatus.WAITING_FOR_INPUT then
            (LoopExit.waiting, { s1 with status := st })
          else sessionLoop env { s1 with status := st }
  else (LoopExit.condFalse, s)
termination_by env.maxTurns - s.turns
decreasing_by
  simp [ManagerState.incrementTurns]
  omega

/-- The observable outcome of `runSession`: the exit reason, the final
manager state, the re-thrown exception if any, and the session-end hook
invocations (exit reason and `getTurns()` at invocation time). -/
structure SessionRun where
  exitReason : SessionExitReason
  finalState : ManagerState
  thrown : Option String
  endHookCalls : List (SessionExitReason × Nat)

/-- `runSession` around the loop (`session.ts` lines 127-238):
`exitReason` starts as `completed`; an early return keeps it; a
`WAITING_FOR_INPUT` break sets `waiting_for_input`; after the loop, a
turn budget exhausted while still `RUNNING` sets `max_turns`; a propagated
exception sets `failed` and is re-thrown; the `finally` block invokes the
session-end hook exactly once with the exit reason and the turn count. -/
def runSession (env : SessionEnv) (s0 : ManagerState) : SessionRun :=
  match sessionLoop env s0 with
  | (LoopExit.earlyReturn, s) =>
      { exitReason := .completed, finalState := s, thrown := none,
        endHookCalls := [(.completed, s.turns)] }
  | (LoopExit.waiting, s) =>
      let er := if env.maxTurns ≤ s.turns ∧ s.status = AgentStatus.RUNNING
        then SessionExitReason.max_turns else .waiting_for_input
      { exitReason := er, finalState := s, thrown := none,
        endHookCalls := [(er, s.turns)] }
  | (LoopExit.condFalse, s) =>
      let er := if env.maxTurns ≤ s.turns ∧ s.status = AgentStatus.RUNNING
        then SessionExitReason.max_turns else .completed
      { exitReason := er, finalState := s, thrown := none,
        endHookCalls := [(er, s.turns)] }
  | (LoopExit.thrown e, s) =>
      { exitReason := .failed, finalState := s, thrown := some e,
        endHookCalls := [(.failed, s.turns)] }

/-- A minimal tool whose validator accepts anything and whose handler
echoes its arguments. -/
def echoTool : ToolSpec :=
  { name := "echo", validate := fun j => .ok j,
    handler := fun a _ => .ok { toolResponse := a, data := some a },
    preHook := none, postHookPresent := false, failHook := none }

/-- A router holding only the echo tool and no hooks. -/
def echoCfg : RouterCfg :=
  { tools := [echoTool], globalPre := none, globalPostPresent := false,
    globalFail := none }

/-- The echo tool with all per-tool hooks present: the pre hook rewrites
the arguments, the failure hook declines to recover. -/
def hookedTool : ToolSpec :=
  { name := "echo",
    validate := fun j => .ok j,
    handler := fun a _ => .ok { toolResponse := a, data := some a },
    preHook := some (fun a => { skip := false,
                                modifiedArgs := some (.arr [a]) }),
    postHookPresent := true,
    failHook := some (fun _ _ => { fallbackContent := none,
                                   suppress := false }) }

/-- A tool whose handler always throws, with a non-recovering per-tool
failure hook. -/
def failingTool : ToolSpec :=
  { name := "boom", validate := fun j => .ok j,
    handler := fun _ _ => .error "boom failed",
    preHook := some (fun _ => { skip := false, modifiedArgs := none }),
    postHookPresent := true,
    failHook := some (fun _ _ => { fallbackContent := none,
                                   suppress := false }) }

/-- A router with both tools and all global hooks present: the global pre
hook wraps the arguments, the global failure hook recovers with fallback
content. -/
def hookedCfg : RouterCfg :=
  { tools := [hookedTool, failingTool],
    globalPre := some (fun c => { skip := false,
                                  modifiedArgs :=
                                    some (.obj [("wrapped", c.args)]) }),
    globalPostPresent := true,
    globalFail := some (fun _ _ => { fallbackContent := some (.str "fallback"),
                                     suppress := false }) }

/-- A router whose global pre hook skips every call. -/
def skipAllCfg : RouterCfg :=
  { tools := [echoTool],
    globalPre := some (fun _ => { skip := true, modifiedArgs := none }),
    globalPostPresent := true, globalFail := none }

/-- A router whose echo tool's per-tool pre hook skips every call. -/
def toolSkipCfg : RouterCfg :=
  { tools := [{ echoTool with
      preHook := some (fun _ => { skip := true, modifiedArgs := none }) }],
    globalPre := none, globalPostPresent := true, globalFail := none }

/-- A tool whose handler always throws, with no hooks anywhere. -/
def bareFailTool : ToolSpec :=
  { name := "boom", validate := fun j => .ok j,
    handler := fun _ _ => .error "boom failed",
    preHook := none, postHookPresent := false, failHook := none }

/-- A router with the bare failing tool and no hooks at all. -/
def bareFailCfg : RouterCfg :=
  { tools := [bareFailTool], globalPre := none, globalPostPresent := false,
    globalFail := none }

/-- A concrete parsed call addressed to the echo tool. -/
def sampleCall : ParsedCall := { id := "c7", name := "echo", args := .num 1 }

/-- A concrete parsed call addressed to the failing tool. -/
def sampleBoomCall : ParsedCall :=
  { id := "c5", name := "boom", args := .null }

/-- A concrete parsed call addressed to no registered tool. -/
def sampleUnknownCall : ParsedCall :=
  { id := "c10", name := "nosuch", args := .null }

/-- The arguments left by the global pre hook (when it did not skip). -/
def effectiveArgsGlobal (cfg : RouterCfg) (call : ParsedCall) : Json :=
  match cfg.globalPre with
  | some g =>
      match (g call).modifiedArgs with
      | some a => a
      | none => call.args
  | none => call.args

/-- Whether the per-tool pre hook, if any, skips at the given arguments. -/
def toolPreSkips (tool : ToolSpec) (a : Json) : Bool :=
  match tool.preHook with
  | some p => (p a).skip
  | none => false

/-- The arguments the handler receives after both pre-hook layers (when
neither skipped). -/
def effectiveArgs (cfg : RouterCfg) (tool : ToolSpec) (call : ParsedCall) :
    Json :=
  match tool.preHook with
  | some p =>
      match (p (effectiveArgsGlobal cfg call)).modifiedArgs with
      | some a => a
      | none => effectiveArgsGlobal cfg call
  | none => effectiveArgsGlobal cfg call

/-- A session environment whose tool processing always throws. -/
def failEnv : SessionEnv :=
  { maxTurns := 3, hasTools := true,
    stopReason := fun _ => some "tool_use",
    processOutcome := fun _ _ => .error "boom failed" }

/-- A session environment in which the model never signals completion and
the status stays `RUNNING` through every turn's processing. -/
def runningEnv : SessionEnv :=
  { maxTurns := 2, hasTools := true,
    stopReason := fun _ => some "tool_use",
    processOutcome := fun _ _ => .ok AgentStatus.RUNNING }

/-- An example task used as a concrete witness input. -/
def sampleTask : WorkflowTask :=
  { id := "t1", subject := "write report", description := "write the report",
    activeForm := "writing report", status := .pending, metadata := [],
    blockedBy := [], blocks := [] }

/-- Concrete create arguments for the task `T1` of the scenario. -/
def sampleCreateArgs1 : TaskCreateArgs :=
  { subject := "gather data", description := "gather the data",
    activeForm := "gathering data", metadata := none }

/-- Concrete create arguments for the task `T2` of the scenario. -/
def sampleCreateArgs2 : TaskCreateArgs :=
  { subject := "write report", description := "write the report",
    activeForm := "writing report", metadata := none }

/-- Scenario state: create `T1` (id `t1`), then `T2` (id `t2`). -/
def scenarioTasks : TaskMap :=
  ((taskCreateHandler "t2" sampleCreateArgs2
      (taskCreateHandler "t1" sampleCreateArgs1 initialManagerState).1).1).tasks

/-- Scenario result: update `T2` with `addBlockedBy=["t1"]`. -/
def scenarioAfterUpdate : TaskMap :=
  taskUpdateMap
    { taskId := "t2", status := none, addBlockedBy := some ["t1"],
      addBlocks := none } scenarioTasks

/-- Concrete update arguments used by a witness. -/
def sampleUpdateArgs : TaskUpdateArgs :=
  { taskId := "t1", status := some .completed, addBlockedBy := some ["t0"],
    addBlocks := none }

/-- Deleting a key succeeds exactly when the key is present. -/
theorem TaskMap.del_fst (m : TaskMap) (id : String) :
    (m.del id).1 = (m.get id).isSome := by
  induction m with
  | nil => rfl
  | cons p rest ih =>
      obtain ⟨k, t⟩ := p
      by_cases h : k = id <;> simp [TaskMap.del, TaskMap.get, h, ih]

/-- Claim C1: each mutating operation of the agent state manager — the
status transitions `run`/`waitForInput`/`complete`/`fail`/`cancel`, `set`
of a custom field, `setTask`, and `deleteTask` of an existing task —
leaves the state version strictly greater than it was before. -/
theorem version_increases_on_mutation :
    ∀ s : ManagerState,
      s.version < s.run.version ∧
      s.version < s.waitForInput.version ∧
      s.version < s.complete.version ∧
      s.version < s.fail.version ∧
      s.version < s.cancel.version ∧
      (∀ k v, s.version < (s.set k v).version) ∧
      (∀ t, s.version < (s.setTask t).version) ∧
      (∀ id, (s.getTask id).isSome → s.version < (s.deleteTask id).2.version) := by
  intro s
  refine ⟨?_, ?_, ?_, ?_, ?_, ?_, ?_, ?_⟩
  · simp [ManagerState.run]
  · simp [ManagerState.waitForInput]
  · simp [ManagerState.complete]
  · simp [ManagerState.fail]
  · simp [ManagerState.cancel]
  · intro k v; simp [ManagerState.set]
  · intro t; simp [ManagerState.setTask]
  · intro id h
    simp only [ManagerState.getTask] at h
    simp only [ManagerState.deleteTask]
    rw [TaskMap.del_fst, h]
    simp

/-- Witness for C1: the `deleteTask` clause discharged at a concrete state
holding task `t1`. -/
theorem version_increases_on_mutation_witness :
    ((initialManagerState.setTask sampleTask).getTask "t1").isSome = true ∧
      (initialManagerState.setTask sampleTask).version <
        ((initialManagerState.setTask sampleTask).deleteTask "t1").2.version :=
  ⟨by decide,
   (version_increases_on_mutation
     (initialManagerState.setTask sampleTask)).2.2.2.2.2.2.2 "t1" (by decide)⟩

/-- Claim C2 (code bug evidence): the state snapshot built by `buildState`
— the value returned by `getCurrentState()` and by the external
`get<Agent>State` query — has no `tasks` key even when the manager holds a
task, although `BaseAgentState` declares `tasks` as part of the state and
the claim says the snapshot contains the task map alongside the other
fields.  Evaluated at the concrete failing input: the default initial state
after `setTask(sampleTask)`. -/
theorem getCurrentState_omits_tasks :
    (initialManagerState.setTask sampleTask).getTask "t1" = some sampleTask ∧
      snapshotGet (buildState (initialManagerState.setTask sampleTask))
        "tasks" = none ∧
      snapshotGet (buildState (initialManagerState.setTask sampleTask))
        "status" = some (.str "RUNNING") := by
  refine ⟨rfl, rfl, rfl⟩

/-- Membership in `pushIfAbsent`. -/
theorem mem_pushIfAbsent (y x : String) (xs : List String) :
    y ∈ pushIfAbsent x xs ↔ y ∈ xs ∨ y = x := by
  unfold pushIfAbsent
  by_cases h : x ∈ xs
  · simp only [h, if_true]
    constructor
    · exact Or.inl
    · rintro (hy | rfl)
      · exact hy
      · exact h
  · simp [h]

/-- `get` after `mapUpdate`. -/
theorem TaskMap.get_mapUpdate (m : TaskMap) (id a : String)
    (f : WorkflowTask → WorkflowTask) :
    (m.mapUpdate id f).get a = if a = id then (m.get a).map f else m.get a := by
  induction m with
  | nil => by_cases h : a = id <;> simp [TaskMap.mapUpdate, TaskMap.get, h]
  | cons p rest ih =>
      obtain ⟨k, t⟩ := p
      by_cases had : a = id
      · subst had
        by_cases hk : k = a <;> simp [TaskMap.mapUpdate, TaskMap.get, hk, ih]
      · have had' : ¬ id = a := fun he => had he.symm
        by_cases hk : k = id
        · subst hk
          simp [TaskMap.mapUpdate, TaskMap.get, had', ih, had]
        · by_cases ha : k = a <;>
            simp [TaskMap.mapUpdate, TaskMap.get, hk, ha, ih, had]

/-- `get` after `set`. -/
theorem TaskMap.get_set (m : TaskMap) (id a : String) (t : WorkflowTask) :
    (m.set id t).get a = if a = id then some t else m.get a := by
  induction m with
  | nil =>
      by_cases h : a = id
      · simp [TaskMap.set, TaskMap.get, h]
      · have h' : ¬ id = a := fun he => h he.symm
        simp [TaskMap.set, TaskMap.get, h, h']
  | cons p rest ih =>
      obtain ⟨k, t'⟩ := p
      by_cases had : a = id
      · subst had
        by_cases hk : k = a <;> simp [TaskMap.set, TaskMap.get, hk, ih]
      · have had' : ¬ id = a := fun he => had he.symm
        by_cases hk : k = id
        · subst hk
          simp [TaskMap.set, TaskMap.get, had', ih, had]
        · by_cases ha : k = a <;>
            simp [TaskMap.set, TaskMap.get, hk, ha, ih, had]

/-- A found task obeys the id/key discipline. -/
theorem WFids.get_id {m : TaskMap} (h : WFids m) {a : String}
    {t : WorkflowTask} (hg : m.get a = some t) : t.id = a := by
  induction m with
  | nil => simp [TaskMap.get] at hg
  | cons p rest ih =>
      obtain ⟨k, t'⟩ := p
      obtain ⟨hid, hrest⟩ := h
      by_cases hk : k = a
      · simp [TaskMap.get, hk] at hg
        subst hg
        exact hk ▸ hid
      · simp [TaskMap.get, hk] at hg
        exact ih hrest hg

/-- `mapUpdate` with an id-preserving function keeps well-formedness. -/
theorem WFids.mapUpdate {m : TaskMap} (h : WFids m) {id : String}
    {f : WorkflowTask → WorkflowTask} (hf : ∀ t, (f t).id = t.id) :
    WFids (m.mapUpdate id f) := by
  induction m with
  | nil => exact h
  | cons p rest ih =>
      obtain ⟨k, t⟩ := p
      obtain ⟨hid, hrest⟩ := h
      by_cases hk : k = id
      · simp only [TaskMap.mapUpdate, if_pos hk]
        exact ⟨(hf t).trans hid, ih hrest⟩
      · simp only [TaskMap.mapUpdate, if_neg hk]
        exact ⟨hid, ih hrest⟩

/-- `set` with a key-consistent task keeps well-formedness. -/
theorem WFids.set {m : TaskMap} (h : WFids m) {id : String}
    {t : WorkflowTask} (ht : t.id = id) : WFids (m.set id t) := by
  induction m with
  | nil => exact ⟨ht, trivial⟩
  | cons p rest ih =>
      obtain ⟨k, t'⟩ := p
      obtain ⟨hid, hrest⟩ := h
      by_cases hk : k = id
      · simp only [TaskMap.set, if_pos hk]
        exact ⟨ht.trans hk.symm, hrest⟩
      · simp only [TaskMap.set, if_neg hk]
        exact ⟨hid, ih hrest⟩

/-- A found task is not mentioned by an `Unmentioned` id. -/
theorem Unmentioned.get {uuid : String} {m : TaskMap} (h : Unmentioned uuid m)
    {a : String} {t : WorkflowTask} (hg : m.get a = some t) :
    uuid ∉ t.blockedBy ∧ uuid ∉ t.blocks := by
  induction m with
  | nil => simp [TaskMap.get] at hg
  | cons p rest ih =>
      obtain ⟨k, t'⟩ := p
      obtain ⟨h1, h2, hrest⟩ := h
      by_cases hk : k = a
      · simp [TaskMap.get, hk] at hg
        subst hg
        exact ⟨h1, h2⟩
      · simp [TaskMap.get, hk] at hg
        exact ih hrest hg

/-- Inversion of a `get` after `mapUpdate`. -/
theorem get_mapUpdate_elim {m : TaskMap} {id a : String}
    {f : WorkflowTask → WorkflowTask} {t : WorkflowTask}
    (h : (m.mapUpdate id f).get a = some t) :
    ∃ t0, m.get a = some t0 ∧ t = (if a = id then f t0 else t0) := by
  rw [TaskMap.get_mapUpdate] at h
  by_cases ha : a = id
  · rw [if_pos ha] at h
    rcases Option.map_eq_some'.mp h with ⟨t0, h0, ht⟩
    exact ⟨t0, h0, by rw [if_pos ha, ht]⟩
  · rw [if_neg ha] at h
    exact ⟨t, h, by rw [if_neg ha]⟩

/-- `mapUpdate` does not change which keys are present. -/
theorem TaskMap.isSome_get_mapUpdate (m : TaskMap) (id a : String)
    (f : WorkflowTask → WorkflowTask) :
    ((m.mapUpdate id f).get a).isSome = (m.get a).isSome := by
  rw [TaskMap.get_mapUpdate]
  by_cases h : a = id <;> simp [h]

/-- The paired pushes of one `addBlockedBy` iteration preserve
bidirectionality: the pair `(taskId, blockerId)` is added to both sides of
the relation at once. -/
theorem bidir_push_both (taskId blockerId : String) (m : TaskMap)
    (hB : Bidirectional m) :
    Bidirectional (pushBlocks blockerId taskId (pushBlockedBy taskId blockerId m)) := by
  intro a ta b tb hga hgb
  rcases get_mapUpdate_elim hga with ⟨ta1, hga1, hta⟩
  rcases get_mapUpdate_elim hga1 with ⟨ta0, hga0, hta1⟩
  rcases get_mapUpdate_elim hgb with ⟨tb1, hgb1, htb⟩
  rcases get_mapUpdate_elim hgb1 with ⟨tb0, hgb0, htb1⟩
  have hBr := hB a ta0 b tb0 hga0 hgb0
  have hstep1 : ta.blockedBy = ta1.blockedBy := by
    rw [hta]
    by_cases hab : a = blockerId <;> simp [hab]
  have hstep2 : ta1.blockedBy =
      if a = taskId then pushIfAbsent blockerId ta0.blockedBy
      else ta0.blockedBy := by
    rw [hta1]
    by_cases hat : a = taskId <;> simp [hat]
  have hstep3 : tb.blocks =
      if b = blockerId then pushIfAbsent taskId tb1.blocks
      else tb1.blocks := by
    rw [htb]
    by_cases hbb : b = blockerId <;> simp [hbb]
  have hstep4 : tb1.blocks = tb0.blocks := by
    rw [htb1]
    by_cases hbt : b = taskId <;> simp [hbt]
  rw [hstep1, hstep2, hstep3, hstep4]
  by_cases hat : a = taskId <;> by_cases hbb : b = blockerId
  · subst hat
    subst hbb
    simp [mem_pushIfAbsent]
  · subst hat
    simpa [mem_pushIfAbsent, hbb] using hBr
  · subst hbb
    simpa [mem_pushIfAbsent, hat] using hBr
  · simpa [mem_pushIfAbsent, hat, hbb] using hBr

/-- Pushing a blocker id that names no existing task preserves
bidirectionality over the pairs of existing tasks. -/
theorem bidir_push_blockedBy_absent (taskId blockerId : String) (m : TaskMap)
    (hnone : m.get blockerId = none) (hB : Bidirectional m) :
    Bidirectional (pushBlockedBy taskId blockerId m) := by
  intro a ta b tb hga hgb
  rcases get_mapUpdate_elim hga with ⟨ta0, hga0, hta⟩
  rcases get_mapUpdate_elim hgb with ⟨tb0, hgb0, htb⟩
  have hbB : ¬ b = blockerId := by
    intro he
    rw [he, hnone] at hgb0
    exact Option.noConfusion hgb0
  have hBr := hB a ta0 b tb0 hga0 hgb0
  have hstep1 : ta.blockedBy =
      if a = taskId then pushIfAbsent blockerId ta0.blockedBy
      else ta0.blockedBy := by
    rw [hta]
    by_cases hat : a = taskId <;> simp [hat]
  have hstep2 : tb.blocks = tb0.blocks := by
    rw [htb]
    by_cases hbt : b = taskId <;> simp [hbt]
  rw [hstep1, hstep2]
  by_cases hat : a = taskId
  · subst hat
    simpa [mem_pushIfAbsent, hbB] using hBr
  · simpa [hat] using hBr

/-- The paired pushes of one `addBlocks` iteration preserve
bidirectionality. -/
theorem bidir_push_both_rev (taskId blockedId : String) (m : TaskMap)
    (hB : Bidirectional m) :
    Bidirectional (pushBlockedBy blockedId taskId (pushBlocks taskId blockedId m)) := by
  intro a ta b tb hga hgb
  rcases get_mapUpdate_elim hga with ⟨ta1, hga1, hta⟩
  rcases get_mapUpdate_elim hga1 with ⟨ta0, hga0, hta1⟩
  rcases get_mapUpdate_elim hgb with ⟨tb1, hgb1, htb⟩
  rcases get_mapUpdate_elim hgb1 with ⟨tb0, hgb0, htb1⟩
  have hBr := hB a ta0 b tb0 hga0 hgb0
  have hstep1 : ta.blockedBy =
      if a = blockedId then pushIfAbsent taskId ta1.blockedBy
      else ta1.blockedBy := by
    rw [hta]
    by_cases hab : a = blockedId <;> simp [hab]
  have hstep2 : ta1.blockedBy = ta0.blockedBy := by
    rw [hta1]
    by_cases hat : a = taskId <;> simp [hat]
  have hstep3 : tb.blocks = tb1.blocks := by
    rw [htb]
    by_cases hbb : b = blockedId <;> simp [hbb]
  have hstep4 : tb1.blocks =
      if b = taskId then pushIfAbsent blockedId tb0.blocks
      else tb0.blocks := by
    rw [htb1]
    by_cases hbt : b = taskId <;> simp [hbt]
  rw [hstep1, hstep2, hstep3, hstep4]
  by_cases hab : a = blockedId <;> by_cases hbt : b = taskId
  · subst hab
    subst hbt
    simp [mem_pushIfAbsent]
  · subst hab
    simpa [mem_pushIfAbsent, hbt] using hBr
  · subst hbt
    simpa [mem_pushIfAbsent, hab] using hBr
  · simpa [mem_pushIfAbsent, hab, hbt] using hBr

/-- Pushing a blocked id that names no existing task preserves
bidirectionality over the pairs of existing tasks. -/
theorem bidir_push_blocks_absent (taskId blockedId : String) (m : TaskMap)
    (hnone : m.get blockedId = none) (hB : Bidirectional m) :
    Bidirectional (pushBlocks taskId blockedId m) := by
  intro a ta b tb hga hgb
  rcases get_mapUpdate_elim hga with ⟨ta0, hga0, hta⟩
  rcases get_mapUpdate_elim hgb with ⟨tb0, hgb0, htb⟩
  have haB : ¬ a = blockedId := by
    intro he
    rw [he, hnone] at hga0
    exact Option.noConfusion hga0
  have hBr := hB a ta0 b tb0 hga0 hgb0
  have hstep1 : ta.blockedBy = ta0.blockedBy := by
    rw [hta]
    by_cases hat : a = taskId <;> simp [hat]
  have hstep2 : tb.blocks =
      if b = taskId then pushIfAbsent blockedId tb0.blocks
      else tb0.blocks := by
    rw [htb]
    by_cases hbt : b = taskId <;> simp [hbt]
  rw [hstep1, hstep2]
  by_cases hbt : b = taskId
  · subst hbt
    simpa [mem_pushIfAbsent, haB] using hBr
  · simpa [hbt] using hBr

/-- One `addBlockedBy` iteration preserves bidirectionality. -/
theorem blockedByStep_bidir (taskId blockerId : String) (m : TaskMap)
    (hB : Bidirectional m) :
    Bidirectional (blockedByStep taskId taskId m blockerId) := by
  unfold blockedByStep
  by_cases h : ((pushBlockedBy taskId blockerId m).get blockerId).isSome = true
  · rw [if_pos h]
    exact bidir_push_both taskId blockerId m hB
  · rw [if_neg h]
    refine bidir_push_blockedBy_absent taskId blockerId m ?_ hB
    rw [pushBlockedBy, TaskMap.isSome_get_mapUpdate] at h
    exact Option.not_isSome_iff_eq_none.mp h

/-- One `addBlocks` iteration preserves bidirectionality. -/
theorem blocksStep_bidir (taskId blockedId : String) (m : TaskMap)
    (hB : Bidirectional m) :
    Bidirectional (blocksStep taskId taskId m blockedId) := by
  unfold blocksStep
  by_cases h : ((pushBlocks taskId blockedId m).get blockedId).isSome = true
  · rw [if_pos h]
    exact bidir_push_both_rev taskId blockedId m hB
  · rw [if_neg h]
    refine bidir_push_blocks_absent taskId blockedId m ?_ hB
    rw [pushBlocks, TaskMap.isSome_get_mapUpdate] at h
    exact Option.not_isSome_iff_eq_none.mp h

/-- One `addBlockedBy` iteration preserves well-formedness. -/
theorem blockedByStep_wf (taskId tid blockerId : String) (m : TaskMap)
    (hW : WFids m) : WFids (blockedByStep taskId tid m blockerId) := by
  unfold blockedByStep pushBlockedBy pushBlocks
  by_cases h : ((m.mapUpdate taskId (fun t =>
      { t with blockedBy := pushIfAbsent blockerId t.blockedBy })).get
        blockerId).isSome = true
  · rw [if_pos h]
    apply WFids.mapUpdate
    · apply WFids.mapUpdate hW
      intro t
      rfl
    · intro t
      rfl
  · rw [if_neg h]
    apply WFids.mapUpdate hW
    intro t
    rfl

/-- One `addBlocks` iteration preserves well-formedness. -/
theorem blocksStep_wf (taskId tid blockedId : String) (m : TaskMap)
    (hW : WFids m) : WFids (blocksStep taskId tid m blockedId) := by
  unfold blocksStep pushBlockedBy pushBlocks
  by_cases h : ((m.mapUpdate taskId (fun t =>
      { t with blocks := pushIfAbsent blockedId t.blocks })).get
        blockedId).isSome = true
  · rw [if_pos h]
    apply WFids.mapUpdate
    · apply WFids.mapUpdate hW
      intro t
      rfl
    · intro t
      rfl
  · rw [if_neg h]
    apply WFids.mapUpdate hW
    intro t
    rfl

/-- The whole `addBlockedBy` loop preserves both invariants. -/
theorem applyAddBlockedBy_preserves (taskId : String)
    (o : Option (List String)) :
    ∀ m : TaskMap, WFids m → Bidirectional m →
      WFids (applyAddBlockedBy taskId taskId o m) ∧
        Bidirectional (applyAddBlockedBy taskId taskId o m) := by
  cases o with
  | none => exact fun m hW hB => ⟨hW, hB⟩
  | some bs =>
      induction bs with
      | nil => exact fun m hW hB => ⟨hW, hB⟩
      | cons x xs ih =>
          intro m hW hB
          have hstep := ih (blockedByStep taskId taskId m x)
            (blockedByStep_wf taskId taskId x m hW)
            (blockedByStep_bidir taskId x m hB)
          exact hstep

/-- The whole `addBlocks` loop preserves both invariants. -/
theorem applyAddBlocks_preserves (taskId : String)
    (o : Option (List String)) :
    ∀ m : TaskMap, WFids m → Bidirectional m →
      WFids (applyAddBlocks taskId taskId o m) ∧
        Bidirectional (applyAddBlocks taskId taskId o m) := by
  cases o with
  | none => exact fun m hW hB => ⟨hW, hB⟩
  | some bs =>
      induction bs with
      | nil => exact fun m hW hB => ⟨hW, hB⟩
      | cons x xs ih =>
          intro m hW hB
          exact ih (blocksStep taskId taskId m x)
            (blocksStep_wf taskId taskId x m hW)
            (blocksStep_bidir taskId x m hB)

/-- The status assignment preserves both invariants. -/
theorem applyStatus_preserves (taskId : String) (o : Option TaskStatus)
    (m : TaskMap) (hW : WFids m) (hB : Bidirectional m) :
    WFids (applyStatus taskId o m) ∧ Bidirectional (applyStatus taskId o m) := by
  cases o with
  | none => exact ⟨hW, hB⟩
  | some st =>
      refine ⟨hW.mapUpdate (fun t => rfl), ?_⟩
      intro a ta b tb hga hgb
      rcases get_mapUpdate_elim hga with ⟨ta0, hga0, hta⟩
      rcases get_mapUpdate_elim hgb with ⟨tb0, hgb0, htb⟩
      have hBr := hB a ta0 b tb0 hga0 hgb0
      have hstep1 : ta.blockedBy = ta0.blockedBy := by
        rw [hta]
        by_cases hat : a = taskId <;> simp [hat]
      have hstep2 : tb.blocks = tb0.blocks := by
        rw [htb]
        by_cases hbt : b = taskId <;> simp [hbt]
      rw [hstep1, hstep2]
      exact hBr

/-- The full task-update transformation preserves the invariants. -/
theorem taskUpdateMap_pres (args : TaskUpdateArgs) (m : TaskMap)
    (hW : WFids m) (hB : Bidirectional m) :
    WFids (taskUpdateMap args m) ∧ Bidirectional (taskUpdateMap args m) := by
  unfold taskUpdateMap
  cases hg : m.get args.taskId with
  | none => exact ⟨hW, hB⟩
  | some t0 =>
      have hid : t0.id = args.taskId := hW.get_id hg
      show WFids (applyAddBlocks args.taskId t0.id args.addBlocks
          (applyAddBlockedBy args.taskId t0.id args.addBlockedBy
            (applyStatus args.taskId args.status m))) ∧
        Bidirectional (applyAddBlocks args.taskId t0.id args.addBlocks
          (applyAddBlockedBy args.taskId t0.id args.addBlockedBy
            (applyStatus args.taskId args.status m)))
      rw [hid]
      have h1 := applyStatus_preserves args.taskId args.status m hW hB
      have h2 := applyAddBlockedBy_preserves args.taskId args.addBlockedBy _
        h1.1 h1.2
      exact applyAddBlocks_preserves args.taskId args.addBlocks _ h2.1 h2.2

/-- Creating a task with a fresh, unmentioned id preserves the invariants. -/
theorem taskCreate_pres (uuid : String) (args : TaskCreateArgs)
    (s : ManagerState) (hW : WFids s.tasks) (hB : Bidirectional s.tasks)
    (hfresh : s.tasks.get uuid = none) (hment : Unmentioned uuid s.tasks) :
    WFids (taskCreateHandler uuid args s).1.tasks ∧
      Bidirectional (taskCreateHandler uuid args s).1.tasks := by
  have htasks : (taskCreateHandler uuid args s).1.tasks =
      s.tasks.set uuid (createTaskFromArgs uuid args) := rfl
  rw [htasks]
  constructor
  · exact hW.set rfl
  · intro a ta b tb hga hgb
    rw [TaskMap.get_set] at hga hgb
    by_cases ha : a = uuid <;> by_cases hb : b = uuid
    · rw [if_pos ha] at hga
      rw [if_pos hb] at hgb
      cases hga
      cases hgb
      simp [createTaskFromArgs]
    · rw [if_pos ha] at hga
      rw [if_neg hb] at hgb
      cases hga
      subst ha
      have := (hment.get hgb).2
      simp [createTaskFromArgs, this]
    · rw [if_neg ha] at hga
      rw [if_pos hb] at hgb
      cases hgb
      subst hb
      have := (hment.get hga).1
      simp [createTaskFromArgs, this]
    · rw [if_neg ha] at hga
      rw [if_neg hb] at hgb
      exact hB a ta b tb hga hgb

/-- Claim C3: after every task-update tool call the `blockedBy`/`blocks`
relation stays bidirectional for every pair of existing tasks (`B` is in
`A.blockedBy` iff `A` is in `B.blocks`), task creation with a fresh,
unmentioned id preserves it as well, and in the concrete scenario —
create `T1` and `T2`, then update `T2` with `addBlockedBy=[T1]` —
`T2.blockedBy` equals `[t1]` and `T1.blocks` equals `[t2]`. -/
theorem task_relation_bidirectional :
    (∀ (args : TaskUpdateArgs) (m : TaskMap), WFids m → Bidirectional m →
        WFids (taskUpdateMap args m) ∧ Bidirectional (taskUpdateMap args m)) ∧
    (∀ (uuid : String) (args : TaskCreateArgs) (s : ManagerState),
        WFids s.tasks → Bidirectional s.tasks → s.tasks.get uuid = none →
        Unmentioned uuid s.tasks →
        WFids (taskCreateHandler uuid args s).1.tasks ∧
          Bidirectional (taskCreateHandler uuid args s).1.tasks) ∧
    (scenarioAfterUpdate.get "t2").map WorkflowTask.blockedBy = some ["t1"] ∧
    (scenarioAfterUpdate.get "t1").map WorkflowTask.blocks = some ["t2"] :=
  ⟨taskUpdateMap_pres, taskCreate_pres, by decide, by decide⟩

/-- Witness for C3: the preservation clauses applied at concrete inputs. -/
theorem task_relation_bidirectional_witness :
    (WFids (taskUpdateMap sampleUpdateArgs []) ∧
      Bidirectional (taskUpdateMap sampleUpdateArgs [])) ∧
    (WFids (taskCreateHandler "t9" sampleCreateArgs1 initialManagerState).1.tasks ∧
      Bidirectional (taskCreateHandler "t9" sampleCreateArgs1 initialManagerState).1.tasks) :=
  ⟨task_relation_bidirectional.1 sampleUpdateArgs [] trivial
      (fun a ta b tb hga _ => by simp [TaskMap.get] at hga),
   task_relation_bidirectional.2.1 "t9" sampleCreateArgs1 initialManagerState
      trivial (fun a ta b tb hga _ => by simp [TaskMap.get] at hga)
      rfl trivial⟩

/-- The session's parse loop forwards exactly the successfully parsed
calls, in order. -/
theorem sessionParseLoop_filterMap (cfg : RouterCfg)
    (raws : List RawToolCall) :
    (sessionParseLoop cfg raws).2 =
      raws.filterMap (fun raw => (parseToolCall cfg raw).toOption) := by
  induction raws with
  | nil => rfl
  | cons tc rest ih =>
      unfold sessionParseLoop
      cases h : parseToolCall cfg tc <;>
        simp [h, Except.toOption, ih]

/-- Claim C4 counterexample: the claim says a raw call supplying no id is
parsed to a `ParsedToolCall` with a synthesized id, but `parseToolCall`
uses `toolCall.id ?? ""`: the id is the constant empty string — nothing
is synthesized, and two distinct id-less calls receive the same empty
id. -/
theorem parseToolCall_id_not_synthesized :
    parseToolCall echoCfg { id := none, name := "echo", args := .null } =
      .ok { id := "", name := "echo", args := .null } ∧
    parseToolCall echoCfg { id := none, name := "echo", args := .bool true } =
      .ok { id := "", name := "echo", args := .bool true } :=
  ⟨rfl, rfl⟩

/-- Claim C4 (amended): `parseToolCall` fails with `UnknownTool` when the
name is not registered; fails with `InvalidArguments` carrying the
validator's detail when the arguments do not satisfy the tool's schema,
and the session's parse loop never forwards such a call to
`processToolCalls` (so it never reaches a handler); and for valid
arguments it returns a `ParsedToolCall` whose args equal the validated
values and whose id is the raw id, or the EMPTY STRING when the raw call
supplied none. -/
theorem parseToolCall_contract :
    (∀ (cfg : RouterCfg) (raw : RawToolCall),
        cfg.tools.find? (fun t => t.name == raw.name) = none →
        parseToolCall cfg raw = .error (.unknownTool raw.name)) ∧
    (∀ (cfg : RouterCfg) (raw : RawToolCall) (tool : ToolSpec) (d : String),
        cfg.tools.find? (fun t => t.name == raw.name) = some tool →
        tool.validate raw.args = .error d →
        parseToolCall cfg raw = .error (.invalidArguments d)) ∧
    (∀ (cfg : RouterCfg) (raw : RawToolCall) (tool : ToolSpec) (v : Json),
        cfg.tools.find? (fun t => t.name == raw.name) = some tool →
        tool.validate raw.args = .ok v →
        parseToolCall cfg raw =
          .ok { id := raw.id.getD "", name := raw.name, args := v }) ∧
    (∀ (cfg : RouterCfg) (raws : List RawToolCall),
        (sessionParseLoop cfg raws).2 =
          raws.filterMap (fun raw => (parseToolCall cfg raw).toOption)) := by
  refine ⟨?_, ?_, ?_, sessionParseLoop_filterMap⟩
  · intro cfg raw hfind
    unfold parseToolCall
    rw [hfind]
  · intro cfg raw tool d hfind hval
    simp [parseToolCall, hfind, hval]
  · intro cfg raw tool v hfind hval
    simp [parseToolCall, hfind, hval]

/-- Witness for C4: the amended contract applied at concrete raw calls. -/
theorem parseToolCall_contract_witness :
    parseToolCall echoCfg { id := some "c1", name := "echo", args := .null } =
      .ok { id := "c1", name := "echo", args := .null } ∧
    parseToolCall echoCfg { id := none, name := "nosuch", args := .null } =
      .error (.unknownTool "nosuch") :=
  ⟨parseToolCall_contract.2.2.1 echoCfg
      { id := some "c1", name := "echo", args := .null } echoTool .null rfl rfl,
   parseToolCall_contract.1 echoCfg
      { id := none, name := "nosuch", args := .null } rfl⟩

/-- `appendsOf` distributes over concatenation. -/
theorem appendsOf_append (a b : List Event) :
    appendsOf (a ++ b) = appendsOf a ++ appendsOf b := by
  unfold appendsOf
  exact List.filterMap_append a b _

/-- Claim C10: given a parsed call whose name is not in the router's tool
map, the pipeline does not throw: it builds the content
`\x7b"error": "Unknown tool: <name>"\x7d`, appends it to the thread exactly
once under the call's id, and returns a result for that call whose data
carries that error object.  (Hypothesis: no pre-hook skipped the call —
a skipped call never reaches the unknown-tool branch, per C8.) -/
theorem unknown_tool_error_result :
    ∀ (cfg : RouterCfg) (hc : Json) (call : ParsedCall),
      cfg.tools.find? (fun t => t.name == call.name) = none →
      globalPreSkips cfg call = false →
      (processToolCall cfg hc call).2 =
        .ok (some { toolCallId := call.id, name := call.name,
                    data := some (unknownToolContent call.name) }) ∧
      appendsOf (processToolCall cfg hc call).1 =
        [(call.id, unknownToolContent call.name)] ∧
      processToolCalls cfg hc [call] =
        ((processToolCall cfg hc call).1,
         .ok [{ toolCallId := call.id, name := call.name,
                data := some (unknownToolContent call.name) }]) := by
  intro cfg hc call hfind hskip
  cases hg : cfg.globalPre with
  | none =>
      cases hpp : cfg.globalPostPresent <;>
        simp [processToolCall, runToolPre, execHandler, finishCall,
          processToolCalls, processToolCallsSeq, appendsOf, hfind, hg, hpp]
  | some g =>
      have hgs : (g call).skip = false := by
        simpa [globalPreSkips, hg] using hskip
      cases hpp : cfg.globalPostPresent <;>
        simp [processToolCall, runToolPre, execHandler, finishCall,
          processToolCalls, processToolCallsSeq, appendsOf, hfind, hg, hgs,
          hpp]

/-- Witness for C10: the unknown-tool path evaluated at a concrete call. -/
theorem unknown_tool_error_result_witness :
    (processToolCall echoCfg (.obj []) sampleUnknownCall).2 =
      .ok (some { toolCallId := "c10", name := "nosuch",
                  data := some (unknownToolContent "nosuch") }) ∧
    appendsOf (processToolCall echoCfg (.obj []) sampleUnknownCall).1 =
      [("c10", unknownToolContent "nosuch")] :=
  ⟨(unknown_tool_error_result echoCfg (.obj []) sampleUnknownCall rfl rfl).1,
   (unknown_tool_error_result echoCfg (.obj []) sampleUnknownCall rfl rfl).2.1⟩

/-- Claim C8: whenever a pre-execution hook returns `skip=true` for a tool
call, exactly one "skipped" result is appended to the thread for that
call's id (the whole trace is that skip-append), the handler and both post
hooks are never invoked for that call, and the call contributes no entry
to the array returned by `processToolCalls`.  Stated for the global hook
skipping, and for the per-tool hook skipping with and without a global
hook present. -/
theorem skip_produces_single_result :
    (∀ (cfg : RouterCfg) (hc : Json) (call : ParsedCall)
        (g : ParsedCall → PreResult),
        cfg.globalPre = some g → (g call).skip = true →
        processToolCall cfg hc call =
          ([Event.preGlobal call.id,
            Event.append call.id skippedGlobalContent], .ok none) ∧
        processToolCalls cfg hc [call] =
          ([Event.preGlobal call.id,
            Event.append call.id skippedGlobalContent], .ok [])) ∧
    (∀ (cfg : RouterCfg) (hc : Json) (call : ParsedCall)
        (g : ParsedCall → PreResult) (tool : ToolSpec)
        (p : Json → PreResult) (a1 : Json),
        cfg.globalPre = some g → (g call).skip = false →
        a1 = (match (g call).modifiedArgs with
              | some a => a
              | none => call.args) →
        cfg.tools.find? (fun t => t.name == call.name) = some tool →
        tool.preHook = some p → (p a1).skip = true →
        processToolCall cfg hc call =
          ([Event.preGlobal call.id, Event.preTool call.id a1,
            Event.append call.id skippedToolContent], .ok none) ∧
        processToolCalls cfg hc [call] =
          ([Event.preGlobal call.id, Event.preTool call.id a1,
            Event.append call.id skippedToolContent], .ok [])) ∧
    (∀ (cfg : RouterCfg) (hc : Json) (call : ParsedCall) (tool : ToolSpec)
        (p : Json → PreResult),
        cfg.globalPre = none →
        cfg.tools.find? (fun t => t.name == call.name) = some tool →
        tool.preHook = some p → (p call.args).skip = true →
        processToolCall cfg hc call =
          ([Event.preTool call.id call.args,
            Event.append call.id skippedToolContent], .ok none) ∧
        processToolCalls cfg hc [call] =
          ([Event.preTool call.id call.args,
            Event.append call.id skippedToolContent], .ok [])) := by
  refine ⟨?_, ?_, ?_⟩
  · intro cfg hc call g hg hgs
    have h1 : processToolCall cfg hc call =
        ([Event.preGlobal call.id,
          Event.append call.id skippedGlobalContent], .ok none) := by
      simp [processToolCall, hg, hgs]
    exact ⟨h1, by simp [processToolCalls, processToolCallsSeq, h1]⟩
  · intro cfg hc call g tool p a1 hg hgs ha1 hfind hp hps
    subst ha1
    have h1 : processToolCall cfg hc call =
        ([Event.preGlobal call.id,
          Event.preTool call.id (match (g call).modifiedArgs with
            | some a => a
            | none => call.args),
          Event.append call.id skippedToolContent], .ok none) := by
      simp [processToolCall, runToolPre, hg, hgs, hfind, hp, hps]
    exact ⟨h1, by simp [processToolCalls, processToolCallsSeq, h1]⟩
  · intro cfg hc call tool p hg hfind hp hps
    have h1 : processToolCall cfg hc call =
        ([Event.preTool call.id call.args,
          Event.append call.id skippedToolContent], .ok none) := by
      simp [processToolCall, runToolPre, hg, hfind, hp, hps]
    exact ⟨h1, by simp [processToolCalls, processToolCallsSeq, h1]⟩

/-- Witness for C8: the global-skip and per-tool-skip routers evaluated at
a concrete call. -/
theorem skip_produces_single_result_witness :
    processToolCall skipAllCfg (.obj []) sampleCall =
      ([Event.preGlobal "c7", Event.append "c7" skippedGlobalContent],
       .ok none) ∧
    processToolCall toolSkipCfg (.obj []) sampleCall =
      ([Event.preTool "c7" (.num 1),
        Event.append "c7" skippedToolContent], .ok none) :=
  ⟨(skip_produces_single_result.1 skipAllCfg (.obj []) sampleCall
      (fun _ => { skip := true, modifiedArgs := none }) rfl rfl).1,
   (skip_produces_single_result.2.2 toolSkipCfg (.obj []) sampleCall
      { echoTool with
        preHook := some (fun _ => { skip := true, modifiedArgs := none }) }
      (fun _ => { skip := true, modifiedArgs := none }) rfl rfl rfl rfl).1⟩

/-- Claim C7: hook ordering is fixed.  For a successful call the trace is
exactly global pre, per-tool pre, handler, append, per-tool post, global
post — with the argument modification made by the global pre hook (`a1`)
received by the per-tool pre hook, and the per-tool modification (`a2`)
received by the handler.  For a call whose handler throws and is recovered
by the global failure hook, the per-tool `onPostToolUseFailure` runs before
the global one, and the post hooks still run per-tool before global after
the recovery. -/
theorem hook_ordering_fixed :
    (∀ (cfg : RouterCfg) (hc : Json) (call : ParsedCall) (tool : ToolSpec)
        (g : ParsedCall → PreResult) (p : Json → PreResult)
        (resp : HandlerResp) (a1 a2 : Json),
        cfg.tools.find? (fun t => t.name == call.name) = some tool →
        cfg.globalPre = some g → (g call).skip = false →
        a1 = (match (g call).modifiedArgs with
              | some a => a
              | none => call.args) →
        tool.preHook = some p → (p a1).skip = false →
        a2 = (match (p a1).modifiedArgs with
              | some a => a
              | none => a1) →
        tool.handler a2 hc = .ok resp →
        tool.postHookPresent = true → cfg.globalPostPresent = true →
        processToolCall cfg hc call =
          ([Event.preGlobal call.id, Event.preTool call.id a1,
            Event.handlerRun call.id a2,
            Event.append call.id resp.toolResponse,
            Event.postTool call.id a2, Event.postGlobal call.id],
           .ok (some { toolCallId := call.id, name := call.name,
                       data := resp.data }))) ∧
    (∀ (cfg : RouterCfg) (hc : Json) (call : ParsedCall) (tool : ToolSpec)
        (g : ParsedCall → PreResult) (p : Json → PreResult)
        (f : Json → String → FailResult) (fg : ParsedCall → String → FailResult)
        (e : String) (c : Json) (a1 a2 : Json),
        cfg.tools.find? (fun t => t.name == call.name) = some tool →
        cfg.globalPre = some g → (g call).skip = false →
        a1 = (match (g call).modifiedArgs with
              | some a => a
              | none => call.args) →
        tool.preHook = some p → (p a1).skip = false →
        a2 = (match (p a1).modifiedArgs with
              | some a => a
              | none => a1) →
        tool.handler a2 hc = .error e →
        tool.failHook = some f →
        (f a2 e).fallbackContent = none → (f a2 e).suppress = false →
        cfg.globalFail = some fg →
        (fg call e).fallbackContent = some c →
        tool.postHookPresent = true → cfg.globalPostPresent = true →
        processToolCall cfg hc call =
          ([Event.preGlobal call.id, Event.preTool call.id a1,
            Event.handlerRun call.id a2, Event.failTool call.id,
            Event.failGlobal call.id, Event.append call.id c,
            Event.postTool call.id a2, Event.postGlobal call.id],
           .ok (some { toolCallId := call.id, name := call.name,
                       data := some (recoveredData e) }))) := by
  constructor
  · intro cfg hc call tool g p resp a1 a2 hfind hg hgs ha1 hp hps ha2 hh
      hpost hgpost
    subst ha2
    subst ha1
    simp [processToolCall, runToolPre, execHandler, finishCall, hfind, hg,
      hgs, hp, hps, hh, hpost, hgpost]
  · intro cfg hc call tool g p f fg e c a1 a2 hfind hg hgs ha1 hp hps ha2
      hh hf hfb hsup hgf hgfb hpost hgpost
    subst ha2
    subst ha1
    simp [processToolCall, runToolPre, execHandler, handleFailure,
      tryGlobalFailure, finishCall, hfind, hg, hgs, hp, hps, hh, hf, hfb,
      hsup, hgf, hgfb, hpost, hgpost]

/-- Witness for C7: both orderings evaluated on the fully hooked router —
the successful echo call and the recovered failing call. -/
theorem hook_ordering_fixed_witness :
    processToolCall hookedCfg (.obj []) sampleCall =
      ([Event.preGlobal "c7",
        Event.preTool "c7" (.obj [("wrapped", .num 1)]),
        Event.handlerRun "c7" (.arr [.obj [("wrapped", .num 1)]]),
        Event.append "c7" (.arr [.obj [("wrapped", .num 1)]]),
        Event.postTool "c7" (.arr [.obj [("wrapped", .num 1)]]),
        Event.postGlobal "c7"],
       .ok (some { toolCallId := "c7", name := "echo",
                   data := some (.arr [.obj [("wrapped", .num 1)]]) })) ∧
    processToolCall hookedCfg (.obj []) sampleBoomCall =
      ([Event.preGlobal "c5",
        Event.preTool "c5" (.obj [("wrapped", .null)]),
        Event.handlerRun "c5" (.obj [("wrapped", .null)]),
        Event.failTool "c5", Event.failGlobal "c5",
        Event.append "c5" (.str "fallback"),
        Event.postTool "c5" (.obj [("wrapped", .null)]),
        Event.postGlobal "c5"],
       .ok (some { toolCallId := "c5", name := "boom",
                   data := some (recoveredData "boom failed") })) :=
  ⟨hook_ordering_fixed.1 hookedCfg (.obj []) sampleCall hookedTool
      (fun c => { skip := false,
                  modifiedArgs := some (.obj [("wrapped", c.args)]) })
      (fun a => { skip := false, modifiedArgs := some (.arr [a]) })
      { toolResponse := .arr [.obj [("wrapped", .num 1)]],
        data := some (.arr [.obj [("wrapped", .num 1)]]) }
      (.obj [("wrapped", .num 1)]) (.arr [.obj [("wrapped", .num 1)]])
      rfl rfl rfl rfl rfl rfl rfl rfl rfl rfl,
   hook_ordering_fixed.2 hookedCfg (.obj []) sampleBoomCall failingTool
      (fun c => { skip := false,
                  modifiedArgs := some (.obj [("wrapped", c.args)]) })
      (fun _ => { skip := false, modifiedArgs := none })
      (fun _ _ => { fallbackContent := none, suppress := false })
      (fun _ _ => { fallbackContent := some (.str "fallback"),
                    suppress := false })
      "boom failed" (.str "fallback")
      (.obj [("wrapped", .null)]) (.obj [("wrapped", .null)])
      rfl rfl rfl rfl rfl rfl rfl rfl rfl rfl rfl rfl rfl rfl rfl⟩

/-- Claim C6 counterexample: the claim says `SubagentNotConfigured` (and
schema-mismatch) failures have no hook recovery path, but they are thrown
from the `Task` tool's handler and caught by the generic failure-hook
stage of `processToolCall` like any handler exception: with a global
`onPostToolUseFailure` returning `suppress`, the unknown-subagent error is
recovered and the pipeline returns a result instead of propagating. -/
theorem subagent_failure_hook_recoverable :
    (createTaskHandler sampleSubagents "parent" "queue" "u1"
        (fun _ _ => .null) { subagent := "nosuch", prompt := "do it" }).2 =
      .error "Unknown subagent: nosuch. Available: researcher" ∧
    (processToolCall suppressAllCfg (.obj []) unknownSubagentCall).2 =
      .ok (some { toolCallId := "c1", name := "Task",
                  data := some (suppressedData
                    "Unknown subagent: nosuch. Available: researcher") }) :=
  ⟨rfl, rfl⟩

/-- Claim C6 (amended): a `Task` call naming a subagent not in the
configured list raises immediately and no child execution is started; a
configured result schema that the child's result fails to validate
against is a hard error; and absent any recovering failure hook these
exceptions propagate out of the pipeline — but they follow the ordinary
handler-failure path, so an `onPostToolUseFailure` hook can recover them
like any other handler exception (see the counterexample). -/
theorem subagent_failures_contract :
    (∀ (subagents : List SubagentCfg) (pid pq uuid : String)
        (execChild : String → Json → Json) (args : TaskArgs),
        subagents.find? (fun s => s.name == args.subagent) = none →
        createTaskHandler subagents pid pq uuid execChild args =
          ([], .error ("Unknown subagent: " ++ args.subagent ++
            ". Available: " ++
            String.intercalate ", " (subagents.map (fun s => s.name))))) ∧
    (∀ (subagents : List SubagentCfg) (pid pq uuid : String)
        (execChild : String → Json → Json) (args : TaskArgs)
        (config : SubagentCfg) (schema : Json → Except String Json)
        (d : String),
        subagents.find? (fun s => s.name == args.subagent) = some config →
        config.resultSchema = some schema →
        schema (execChild config.workflowType
          (subagentInput args.prompt config.context)) = .error d →
        (createTaskHandler subagents pid pq uuid execChild args).2 =
          .error d) ∧
    (∀ (cfg : RouterCfg) (hc : Json) (call : ParsedCall) (tool : ToolSpec)
        (e : String),
        cfg.tools.find? (fun t => t.name == call.name) = some tool →
        cfg.globalPre = none → tool.preHook = none →
        tool.handler call.args hc = .error e →
        tool.failHook = none → cfg.globalFail = none →
        (processToolCall cfg hc call).2 = .error e) := by
  refine ⟨?_, ?_, ?_⟩
  · intro subagents pid pq uuid execChild args hfind
    simp [createTaskHandler, hfind]
  · intro subagents pid pq uuid execChild args config schema d hfind hschema
      hval
    simp [createTaskHandler, hfind, hschema, hval]
  · intro cfg hc call tool e hfind hg hp hh hf hgf
    simp [processToolCall, runToolPre, execHandler, handleFailure,
      tryGlobalFailure, hfind, hg, hp, hh, hf, hgf]

/-- Witness for C6: the unknown-subagent fast failure and the no-hook
propagation, at concrete inputs. -/
theorem subagent_failures_contract_witness :
    createTaskHandler sampleSubagents "parent" "queue" "u1"
        (fun _ _ => .null) { subagent := "writer", prompt := "write" } =
      ([], .error "Unknown subagent: writer. Available: researcher") ∧
    (processToolCall bareFailCfg (.obj []) sampleBoomCall).2 =
      .error "boom failed" :=
  ⟨subagent_failures_contract.1 sampleSubagents "parent" "queue" "u1"
      (fun _ _ => .null) { subagent := "writer", prompt := "write" } rfl,
   subagent_failures_contract.2.2 bareFailCfg (.obj []) sampleBoomCall
      bareFailTool "boom failed" rfl rfl rfl rfl rfl rfl⟩

/-- When the global failure hook does not recover, `tryGlobalFailure`
rethrows and appends nothing. -/
theorem tryGlobalFailure_noRecover (cfg : RouterCfg) (call : ParsedCall)
    (tool : Option ToolSpec) (evts : List Event) (args : Json) (e : String)
    (h : ∀ f, cfg.globalFail = some f →
      (f call e).fallbackContent = none ∧ (f call e).suppress = false) :
    (tryGlobalFailure cfg call tool evts args e).2 = .error e ∧
    appendsOf (tryGlobalFailure cfg call tool evts args e).1 =
      appendsOf evts := by
  cases hg : cfg.globalFail with
  | none => simp [tryGlobalFailure, hg]
  | some f =>
      obtain ⟨h1, h2⟩ := h f hg
      simp [tryGlobalFailure, hg, h1, h2, appendsOf_append, appendsOf]

/-- When neither failure layer recovers, `handleFailure` rethrows and
appends nothing. -/
theorem handleFailure_noRecover (cfg : RouterCfg) (call : ParsedCall)
    (tool : ToolSpec) (evts : List Event) (args : Json) (e : String)
    (hf : ∀ f, tool.failHook = some f →
      (f args e).fallbackContent = none ∧ (f args e).suppress = false)
    (hg : ∀ f, cfg.globalFail = some f →
      (f call e).fallbackContent = none ∧ (f call e).suppress = false) :
    (handleFailure cfg call (some tool) evts args e).2 = .error e ∧
    appendsOf (handleFailure cfg call (some tool) evts args e).1 =
      appendsOf evts := by
  cases hfh : tool.failHook with
  | none =>
      have h3 := tryGlobalFailure_noRecover cfg call (some tool) evts args e hg
      simpa [handleFailure, hfh] using h3
  | some f =>
      obtain ⟨h1, h2⟩ := hf f hfh
      have h3 := tryGlobalFailure_noRecover cfg call (some tool)
        (evts ++ [Event.failTool call.id]) args e hg
      have hred : handleFailure cfg call (some tool) evts args e =
          tryGlobalFailure cfg call (some tool)
            (evts ++ [Event.failTool call.id]) args e := by
        simp [handleFailure, hfh, h1, h2]
      rw [hred]
      refine ⟨h3.1, ?_⟩
      rw [h3.2, appendsOf_append]
      simp [appendsOf]

/-- When the first call of a batch throws, sequential processing stops
there: the rest of the batch contributes nothing. -/
theorem processToolCallsSeq_error (cfg : RouterCfg) (hc : Json)
    (call : ParsedCall) (rest : List ParsedCall) (e : String)
    (h : (processToolCall cfg hc call).2 = .error e) :
    processToolCallsSeq cfg hc (call :: rest) =
      ((processToolCall cfg hc call).1, .error e) := by
  rcases hp : processToolCall cfg hc call with ⟨ev, r⟩
  rw [hp] at h
  simp only at h
  subst h
  simp [processToolCallsSeq, hp]

/-- An unrecovered handler exception propagates from the per-call
pipeline: the result is the error and nothing is appended for the call. -/
theorem processToolCall_noRecover (cfg : RouterCfg) (hc : Json)
    (call : ParsedCall) (tool : ToolSpec) (e : String)
    (hfind : cfg.tools.find? (fun t => t.name == call.name) = some tool)
    (hgs : globalPreSkips cfg call = false)
    (hts : toolPreSkips tool (effectiveArgsGlobal cfg call) = false)
    (hh : tool.handler (effectiveArgs cfg tool call) hc = .error e)
    (hf : ∀ f, tool.failHook = some f →
      (f (effectiveArgs cfg tool call) e).fallbackContent = none ∧
      (f (effectiveArgs cfg tool call) e).suppress = false)
    (hgf : ∀ f, cfg.globalFail = some f →
      (f call e).fallbackContent = none ∧ (f call e).suppress = false) :
    (processToolCall cfg hc call).2 = .error e ∧
    appendsOf (processToolCall cfg hc call).1 = [] := by
  cases hg : cfg.globalPre with
  | none =>
      cases hp : tool.preHook with
      | none =>
          simp only [effectiveArgs, effectiveArgsGlobal, hg, hp] at hh hf
          constructor
          · simp [processToolCall, runToolPre, execHandler, hfind, hg, hp, hh]
            exact (handleFailure_noRecover cfg call tool _ _ e hf hgf).1
          · simp [processToolCall, runToolPre, execHandler, hfind, hg, hp, hh]
            rw [(handleFailure_noRecover cfg call tool _ _ e hf hgf).2]
            simp [appendsOf]
      | some p =>
          simp only [toolPreSkips, effectiveArgsGlobal, hg, hp] at hts
          simp only [effectiveArgs, effectiveArgsGlobal, hg, hp] at hh hf
          constructor
          · simp [processToolCall, runToolPre, execHandler, hfind, hg, hp,
              hts, hh]
            exact (handleFailure_noRecover cfg call tool _ _ e hf hgf).1
          · simp [processToolCall, runToolPre, execHandler, hfind, hg, hp,
              hts, hh]
            rw [(handleFailure_noRecover cfg call tool _ _ e hf hgf).2]
            simp [appendsOf]
  | some g =>
      simp only [globalPreSkips, hg] at hgs
      cases hp : tool.preHook with
      | none =>
          simp only [toolPreSkips, effectiveArgsGlobal, hg, hp] at hts
          simp only [effectiveArgs, effectiveArgsGlobal, hg, hp] at hh hf
          constructor
          · simp [processToolCall, runToolPre, execHandler, hfind, hg, hgs,
              hp, hh]
            exact (handleFailure_noRecover cfg call tool _ _ e hf hgf).1
          · simp [processToolCall, runToolPre, execHandler, hfind, hg, hgs,
              hp, hh]
            rw [(handleFailure_noRecover cfg call tool _ _ e hf hgf).2]
            simp [appendsOf]
      | some p =>
          simp only [toolPreSkips, effectiveArgsGlobal, hg, hp] at hts
          simp only [effectiveArgs, effectiveArgsGlobal, hg, hp] at hh hf
          constructor
          · simp [processToolCall, runToolPre, execHandler, hfind, hg, hgs,
              hp, hts, hh]
            exact (handleFailure_noRecover cfg call tool _ _ e hf hgf).1
          · simp [processToolCall, runToolPre, execHandler, hfind, hg, hgs,
              hp, hts, hh]
            rw [(handleFailure_noRecover cfg call tool _ _ e hf hgf).2]
            simp [appendsOf]

/-- A propagated processing exception makes the session fail: exit reason
`failed`, the exception re-thrown, and the session-end notification fired
exactly once with the turn count reached. -/
theorem runSession_failed (env : SessionEnv) (s : ManagerState) (e : String)
    (hrun : s.status = AgentStatus.RUNNING) (hlt : s.turns < env.maxTurns)
    (hstop : env.stopReason (s.turns + 1) ≠ some "end_turn")
    (htools : env.hasTools = true)
    (hproc : env.processOutcome (s.turns + 1) AgentStatus.RUNNING =
      .error e) :
    runSession env s =
      { exitReason := .failed, finalState := s.incrementTurns,
        thrown := some e,
        endHookCalls := [(SessionExitReason.failed, s.turns + 1)] } := by
  have hloop : sessionLoop env s = (LoopExit.thrown e, s.incrementTurns) := by
    rw [sessionLoop]
    rw [dif_pos ⟨hrun, by simp [hrun, isTerminalStatus], hlt⟩]
    simp [ManagerState.incrementTurns, hrun, hstop, htools, hproc]
  rw [runSession, hloop]
  simp [ManagerState.incrementTurns]

/-- Claim C5: if a tool handler throws and neither the per-tool nor the
global `onPostToolUseFailure` hook recovers (via `fallbackContent` or
`suppress`), the exception propagates out of the per-call pipeline with
nothing appended for the call, sequential `processToolCalls` aborts the
remaining batch at that call, the session's exit reason is `failed`, and
the session-end notification still fires exactly once with the turn count
reached. -/
theorem unrecovered_failure_fails_session :
    (∀ (cfg : RouterCfg) (hc : Json) (call : ParsedCall) (tool : ToolSpec)
        (e : String) (rest : List ParsedCall),
        cfg.tools.find? (fun t => t.name == call.name) = some tool →
        globalPreSkips cfg call = false →
        toolPreSkips tool (effectiveArgsGlobal cfg call) = false →
        tool.handler (effectiveArgs cfg tool call) hc = .error e →
        (∀ f, tool.failHook = some f →
          (f (effectiveArgs cfg tool call) e).fallbackContent = none ∧
          (f (effectiveArgs cfg tool call) e).suppress = false) →
        (∀ f, cfg.globalFail = some f →
          (f call e).fallbackContent = none ∧ (f call e).suppress = false) →
        (processToolCall cfg hc call).2 = .error e ∧
        appendsOf (processToolCall cfg hc call).1 = [] ∧
        processToolCallsSeq cfg hc (call :: rest) =
          ((processToolCall cfg hc call).1, .error e)) ∧
    (∀ (env : SessionEnv) (s : ManagerState) (e : String),
        s.status = AgentStatus.RUNNING → s.turns < env.maxTurns →
        env.stopReason (s.turns + 1) ≠ some "end_turn" →
        env.hasTools = true →
        env.processOutcome (s.turns + 1) AgentStatus.RUNNING = .error e →
        runSession env s =
          { exitReason := .failed, finalState := s.incrementTurns,
            thrown := some e,
            endHookCalls := [(SessionExitReason.failed, s.turns + 1)] }) := by
  constructor
  · intro cfg hc call tool e rest hfind hgs hts hh hf hgf
    have h1 := processToolCall_noRecover cfg hc call tool e hfind hgs hts hh
      hf hgf
    exact ⟨h1.1, h1.2, processToolCallsSeq_error cfg hc call rest e h1.1⟩
  · exact runSession_failed

/-- Witness for C5: the bare failing router and the always-throwing
session environment, at concrete inputs. -/
theorem unrecovered_failure_fails_session_witness :
    ((processToolCall bareFailCfg (.obj []) sampleBoomCall).2 =
        .error "boom failed" ∧
      appendsOf (processToolCall bareFailCfg (.obj []) sampleBoomCall).1 =
        [] ∧
      processToolCallsSeq bareFailCfg (.obj []) [sampleBoomCall, sampleCall] =
        ((processToolCall bareFailCfg (.obj []) sampleBoomCall).1,
         .error "boom failed")) ∧
    runSession failEnv initialManagerState =
      { exitReason := .failed,
        finalState := initialManagerState.incrementTurns,
        thrown := some "boom failed",
        endHookCalls := [(SessionExitReason.failed, 1)] } :=
  ⟨unrecovered_failure_fails_session.1 bareFailCfg (.obj []) sampleBoomCall
      bareFailTool "boom failed" [sampleCall] rfl rfl rfl rfl
      (fun f h => nomatch h) (fun f h => nomatch h),
   unrecovered_failure_fails_session.2 failEnv initialManagerState
      "boom failed" rfl (by decide) (by decide) rfl rfl⟩

/-- When the model never signals completion and every turn's processing
leaves the status `RUNNING`, the loop runs until the turn budget is
exhausted and exits by its condition, with the turn counter at
`maxTurns` (or untouched when it already started there). -/
theorem sessionLoop_allRunning (env : SessionEnv)
    (htools : env.hasTools = true)
    (hstop : ∀ n, env.stopReason n ≠ some "end_turn")
    (hproc : ∀ n st, env.processOutcome n st = .ok AgentStatus.RUNNING) :
    ∀ (k : Nat) (s : ManagerState), env.maxTurns - s.turns = k →
      s.status = AgentStatus.RUNNING →
      sessionLoop env s =
        (LoopExit.condFalse,
         { s with turns := max s.turns env.maxTurns }) := by
  intro k
  induction k using Nat.strong_induction_on with
  | _ k ih =>
      intro s hk hrun
      obtain ⟨st, v, tu, tls, tks, cst⟩ := s
      simp only at hk hrun ⊢
      subst hrun
      by_cases hlt : tu < env.maxTurns
      · have hstep : sessionLoop env
            ⟨AgentStatus.RUNNING, v, tu, tls, tks, cst⟩ =
            sessionLoop env
              ⟨AgentStatus.RUNNING, v, tu + 1, tls, tks, cst⟩ := by
          conv_lhs => rw [sessionLoop]
          rw [dif_pos ⟨rfl, by simp [isTerminalStatus], hlt⟩]
          simp [ManagerState.incrementTurns, hstop, htools, hproc]
        rw [hstep]
        have hk' : env.maxTurns - (tu + 1) < k := by omega
        have h2 := ih _ hk'
          ⟨AgentStatus.RUNNING, v, tu + 1, tls, tks, cst⟩ rfl rfl
        rw [h2]
        have hmax : max (tu + 1) env.maxTurns = max tu env.maxTurns := by
          omega
        rw [hmax]
      · rw [sessionLoop]
        rw [dif_neg (fun h => hlt h.2.2)]
        have hmax : max tu env.maxTurns = tu := by omega
        rw [hmax]

/-- Claim C9: if the model never signals completion and the status stays
`RUNNING` (no hook makes it terminal or waiting), the session loop
executes at most `maxTurns` turns — the final turn counter is
`max turns₀ maxTurns` — and terminates with exit reason exactly
`max_turns`, reported once to the session-end hook. -/
theorem session_max_turns :
    ∀ (env : SessionEnv) (s : ManagerState),
      s.status = AgentStatus.RUNNING → env.hasTools = true →
      (∀ n, env.stopReason n ≠ some "end_turn") →
      (∀ n st, env.processOutcome n st = .ok AgentStatus.RUNNING) →
      (runSession env s).exitReason = SessionExitReason.max_turns ∧
      (runSession env s).finalState.turns = max s.turns env.maxTurns ∧
      (runSession env s).endHookCalls =
        [(SessionExitReason.max_turns, max s.turns env.maxTurns)] := by
  intro env s hrun htools hstop hproc
  have hloop := sessionLoop_allRunning env htools hstop hproc
    (env.maxTurns - s.turns) s rfl hrun
  simp [runSession, hloop, hrun, Nat.le_max_right]

/-- Witness for C9: the always-running environment started at turn 0 with
a budget of 2 executes exactly 2 turns and exits with `max_turns`. -/
theorem session_max_turns_witness :
    (runSession runningEnv initialManagerState).exitReason =
      SessionExitReason.max_turns ∧
    (runSession runningEnv initialManagerState).finalState.turns = 2 :=
  ⟨(session_max_turns runningEnv initialManagerState rfl rfl
      (fun n =>
        (by decide : (some "tool_use" : Option String) ≠ some "end_turn"))
      (fun n st => rfl)).1,
   (session_max_turns runningEnv initialManagerState rfl rfl
      (fun n =>
        (by decide : (some "tool_use" : Option String) ≠ some "end_turn"))
      (fun n st => rfl)).2.1⟩

end Zeitlich
